import Mathlib

/-!
# kgateway: bootstrap assembler and common collections

A shallow embedding of `pkg/xds/bootstrap/builder.go` (the `ConfigBuilder` that assembles a
validation-only Envoy bootstrap document) and of `pkg/pluginsdk/collections/collections.go`
(the two-phase `CommonCollections` composition root), followed by theorems about them.

Conventions of the embedding:
* protobuf messages are structures holding the fields the code reads or writes, plus a field
  `rest` standing for all remaining fields (carried around untouched);
* Go maps keyed by strings are association lists with at most one live entry per key
  (`mapGet` reads the first entry, `mapSet` overwrites it in place or appends);
* `proto.Clone` is the identity on values; pointer aliasing is made explicit by state passing:
  `Build` returns the builder it leaves behind, since it rewrites the stored listeners in place;
* a Go result pair `(doc, err)` is a structure of two options.
-/

namespace bootstrap

/-! ## Data model -/

/-- Serialized protobuf message (`anypb.Any`): a type URL and the encoded bytes. -/
structure Any where
  typeUrl : String
  value : List Nat
  deriving DecidableEq, Repr

/-- An arbitrary `proto.Message` handed to `AddFilterConfig`. -/
structure ProtoMessage where
  typeName : String
  fields : List Nat
  deriving DecidableEq, Repr

/-- Go map with string keys, as an association list. -/
abbrev GoMap (V : Type) := List (String × V)

/-- Map read `m[k]` with the comma-ok idiom: the value of the first entry for `k`. -/
def mapGet {V : Type} : GoMap V → String → Option V
  | [], _ => none
  | (k', v) :: m, k => if k' = k then some v else mapGet m k

/-- Map write `m[k] = v`: overwrite the entry for `k`, or add one. -/
def mapSet {V : Type} : GoMap V → String → V → GoMap V
  | [], k, v => [(k, v)]
  | (k', v') :: m, k, v => if k' = k then (k, v) :: m else (k', v') :: mapSet m k v

/-- The `envoyroutev3.Route` message. -/
structure Route where
  name : String
  rest : List Nat
  deriving DecidableEq, Repr

/-- The `envoyclusterv3.Cluster` message. -/
structure Cluster where
  name : String
  rest : List Nat
  deriving DecidableEq, Repr

/-- The `envoyroutev3.VirtualHost` message. -/
structure VirtualHost where
  name : String
  domains : List String
  routes : List Route
  typedPerFilterConfig : GoMap Any
  rest : List Nat
  deriving DecidableEq, Repr

/-- The `envoyroutev3.RouteConfiguration` message. -/
structure RouteConfiguration where
  name : String
  virtualHosts : List VirtualHost
  rest : List Nat
  deriving DecidableEq, Repr

/-- The `HttpConnectionManager` message; `routeConfig` is the `RouteConfig` arm of the
`RouteSpecifier` oneof. -/
structure HttpConnectionManager where
  StatPrefix : String
  routeConfig : Option RouteConfiguration
  deriving DecidableEq, Repr

/-- The `envoylistenerv3.Filter` message; `typedConfig` is the `TypedConfig` arm of `ConfigType`. -/
structure Filter where
  name : String
  typedConfig : Option Any
  deriving DecidableEq, Repr

/-- The `envoylistenerv3.FilterChain` message. -/
structure FilterChain where
  name : String
  filters : List Filter
  rest : List Nat
  deriving DecidableEq, Repr

/-- The `envoycorev3.SocketAddress` message with a `PortValue` port specifier. -/
structure SocketAddress where
  address : String
  portValue : Nat
  deriving DecidableEq, Repr

/-- The `envoylistenerv3.Listener` message. -/
structure Listener where
  name : String
  address : Option SocketAddress
  filterChains : List FilterChain
  rest : List Nat
  deriving DecidableEq, Repr

/-- The `Bootstrap_StaticResources` message. -/
structure StaticResources where
  listeners : List Listener := []
  clusters : List Cluster := []
  deriving DecidableEq, Repr

/-- The `envoycorev3.Node` message. -/
structure Node where
  id : String
  cluster : String
  deriving DecidableEq, Repr

/-- The `envoybootstrapv3.Bootstrap` message. -/
structure Bootstrap where
  node : Node
  staticResources : StaticResources
  deriving DecidableEq, Repr

/-- The `ConfigBuilder` struct. -/
structure ConfigBuilder where
  filterConfigs : GoMap ProtoMessage
  routes : List Route
  routeConfigurations : GoMap RouteConfiguration
  clusters : List Cluster
  listeners : List Listener
  deriving DecidableEq, Repr

/-- The Go result pair `(*Bootstrap, error)` of `Build`. -/
structure BuildResult where
  doc : Option Bootstrap
  err : Option String
  deriving DecidableEq, Repr

/-- The serializer `utils.MessageToAny` at `HttpConnectionManager`; it may fail. -/
abbrev Marshal := HttpConnectionManager → Except String Any

/-- Modelled from the spec: the constant `envoywellknown.HTTPConnectionManager` of the
go-control-plane library, the name of "the reverse-proxy's HTTP-connection-manager filter". -/
def HTTPConnectionManager : String := "envoy.filters.network.http_connection_manager"

/-! ## Operations -/

/-- The constructor `New`: a builder with two empty maps and nil slices. -/
def New : ConfigBuilder :=
  { filterConfigs := [], routes := [], routeConfigurations := [], clusters := [], listeners := [] }

/-- Modelled from the spec: `ir.TypedFilterConfigMap.AddTypedConfig` is not among the sources;
it records the configuration under its name. -/
def AddTypedConfig (m : GoMap ProtoMessage) (name : String) (config : ProtoMessage) :
    GoMap ProtoMessage :=
  mapSet m name config

/-- Modelled from the spec: `ir.TypedFilterConfigMap.ToAnyMap` is not among the sources; it
renders every stored configuration as an `Any` under the same name. -/
def ToAnyMap (toAny : ProtoMessage → Any) (m : GoMap ProtoMessage) : GoMap Any :=
  m.map (fun kv => (kv.1, toAny kv.2))

/-- The method `AddFilterConfig` adds a filter configuration to the builder. -/
def ConfigBuilder.AddFilterConfig (b : ConfigBuilder) (name : String) (config : ProtoMessage) :
    ConfigBuilder :=
  { b with filterConfigs := AddTypedConfig b.filterConfigs name config }

/-- The method `AddRoutes`: the loop appends a clone of every route, in order. -/
def ConfigBuilder.AddRoutes (b : ConfigBuilder) (routes : List Route) : ConfigBuilder :=
  routes.foldl (fun b route => { b with routes := b.routes ++ [route] }) b

/-- The method `AddRouteConfigurations`: the loop stores a clone of every route configuration
under its name, overwriting an entry of that name; the stored routes are untouched (the doc
comment of the source, "AddRoute adds a route to the builder", is the one of `AddRoutes`). -/
def ConfigBuilder.AddRouteConfigurations (b : ConfigBuilder)
    (routeConfigurations : List RouteConfiguration) : ConfigBuilder :=
  routeConfigurations.foldl
    (fun b rc => { b with routeConfigurations := mapSet b.routeConfigurations rc.name rc }) b

/-- The method `AddClusters`: the loop appends a clone of every cluster, in order. -/
def ConfigBuilder.AddClusters (b : ConfigBuilder) (clusters : List Cluster) : ConfigBuilder :=
  clusters.foldl (fun b cluster => { b with clusters := b.clusters ++ [cluster] }) b

/-- The method `AddListener`: the loop appends a clone of every listener, in order. -/
def ConfigBuilder.AddListener (b : ConfigBuilder) (listeners : List Listener) : ConfigBuilder :=
  listeners.foldl (fun b listener => { b with listeners := b.listeners ++ [listener] }) b

/-- The innermost loop of `Build` over `fc.Filters` of a chain named `fcName`: the filters as
the loop leaves them, and the error it returned with (if any). Filters before the failing one
have already been overwritten. -/
def patchFilters (messageToAny : Marshal) (rcs : GoMap RouteConfiguration) (fcName : String) :
    List Filter → List Filter × Option String
  | [] => ([], none)
  | f :: fs =>
    if f.name = "envoy.filters.network.http_connection_manager" then
      match mapGet rcs fcName with
      | none => (f :: fs, some ("no RouteConfiguration found with name " ++ fcName))
      | some rc =>
        match messageToAny { StatPrefix := "placeholder", routeConfig := some rc } with
        | .error e => (f :: fs, some ("failed to marshal HttpConnectionManager: " ++ e))
        | .ok newHCM =>
          let r := patchFilters messageToAny rcs fcName fs
          ({ name := HTTPConnectionManager, typedConfig := some newHCM } :: r.1, r.2)
    else
      let r := patchFilters messageToAny rcs fcName fs
      (f :: r.1, r.2)

/-- The loop of `Build` over `l.FilterChains`. -/
def patchChains (messageToAny : Marshal) (rcs : GoMap RouteConfiguration) :
    List FilterChain → List FilterChain × Option String
  | [] => ([], none)
  | fc :: fcs =>
    let r := patchFilters messageToAny rcs fc.name fc.filters
    match r.2 with
    | some e => ({ fc with filters := r.1 } :: fcs, some e)
    | none =>
      let rs := patchChains messageToAny rcs fcs
      ({ fc with filters := r.1 } :: rs.1, rs.2)

/-- The loop of `Build` over `b.listeners`. -/
def patchListeners (messageToAny : Marshal) (rcs : GoMap RouteConfiguration) :
    List Listener → List Listener × Option String
  | [] => ([], none)
  | l :: ls =>
    let r := patchChains messageToAny rcs l.filterChains
    match r.2 with
    | some e => ({ l with filterChains := r.1 } :: ls, some e)
    | none =>
      let rs := patchListeners messageToAny rcs ls
      ({ l with filterChains := r.1 } :: rs.1, rs.2)

/-- The virtual host synthesized by `Build` for loose fragments. -/
def placeholderVhost (toAny : ProtoMessage → Any) (b : ConfigBuilder) : VirtualHost :=
  { name := "placeholder_vhost"
    domains := ["*"]
    typedPerFilterConfig :=
      if b.filterConfigs.length > 0 then ToAnyMap toAny b.filterConfigs else []
    routes := if b.routes.length > 0 then b.routes else []
    rest := [] }

/-- The `HttpConnectionManager` that `Build` marshals for the placeholder listener. -/
def placeholderHCM (toAny : ProtoMessage → Any) (b : ConfigBuilder) : HttpConnectionManager :=
  { StatPrefix := "placeholder"
    routeConfig := some { name := "", virtualHosts := [placeholderVhost toAny b], rest := [] } }

/-- The listener synthesized by `Build` around the marshalled connection manager. -/
def placeholderListener (hcmAny : Any) : Listener :=
  { name := "placeholder_listener"
    address := some { address := "0.0.0.0", portValue := 8081 }
    filterChains :=
      [{ name := "placeholder_filter_chain"
         filters := [{ name := HTTPConnectionManager, typedConfig := some hcmAny }]
         rest := [] }]
    rest := [] }

/-- The fixed node identity of the document. -/
def validationNode : Node := { id := "validation-node-id", cluster := "validation-cluster" }

/-- The method `Build` creates a partial bootstrap config suitable for validation. It returns
the Go result pair together with the builder as the call leaves it. -/
def ConfigBuilder.Build (messageToAny : Marshal) (toAny : ProtoMessage → Any)
    (b : ConfigBuilder) : BuildResult × ConfigBuilder :=
  let synthesized : Except String StaticResources :=
    if b.filterConfigs.length > 0 ∨ b.routes.length > 0 then
      match messageToAny (placeholderHCM toAny b) with
      | .error e => .error ("failed to marshal HttpConnectionManager: " ++ e)
      | .ok hcmAny => .ok { listeners := [placeholderListener hcmAny] }
    else .ok {}
  match synthesized with
  | .error e => ({ doc := none, err := some e }, b)
  | .ok sr0 =>
    let sr1 : StaticResources :=
      if b.clusters.length > 0 then { sr0 with clusters := b.clusters } else sr0
    if b.listeners.length > 0 then
      let r := patchListeners messageToAny b.routeConfigurations b.listeners
      match r.2 with
      | some e => ({ doc := none, err := some e }, { b with listeners := r.1 })
      | none =>
        ({ doc := some { node := validationNode,
                         staticResources := { sr1 with listeners := r.1 } },
           err := none },
         { b with listeners := r.1 })
    else
      ({ doc := some { node := validationNode, staticResources := sr1 }, err := none }, b)

/-! ## Specification-side definitions -/

/-- A filter chain that holds a connection-manager filter while no route configuration is
stored under the chain's name. -/
def missingRouteConfig (rcs : GoMap RouteConfiguration) (fc : FilterChain) : Bool :=
  fc.filters.any (fun f => decide (f.name = "envoy.filters.network.http_connection_manager"))
    && (mapGet rcs fc.name).isNone

/-- All filter chains of the listeners, in listener order and then filter-chain order. -/
def allChains (ls : List Listener) : List FilterChain :=
  ls.flatMap (fun l => l.filterChains)

/-- The first filter chain, in listener / filter-chain order, that lacks its route
configuration. -/
def firstMissing (rcs : GoMap RouteConfiguration) (ls : List Listener) : Option FilterChain :=
  (allChains ls).find? (missingRouteConfig rcs)

/-- Back-patching of one filter inside a chain named `n`: a connection-manager filter becomes
a filter of that name whose typed configuration is the serialized `HttpConnectionManager`
embedding the route configuration stored under `n`; any other filter stays as it is. -/
def FilterPatched (m : Marshal) (rcs : GoMap RouteConfiguration) (n : String)
    (f f' : Filter) : Prop :=
  if f.name = "envoy.filters.network.http_connection_manager" then
    ∃ rc a, mapGet rcs n = some rc ∧
      m { StatPrefix := "placeholder", routeConfig := some rc } = .ok a ∧
      f' = { name := "envoy.filters.network.http_connection_manager", typedConfig := some a }
  else f' = f

/-- Back-patching of a filter chain: same name and remaining fields, filters patched
position by position. -/
def ChainPatched (m : Marshal) (rcs : GoMap RouteConfiguration) (fc fc' : FilterChain) : Prop :=
  fc'.name = fc.name ∧ fc'.rest = fc.rest ∧
    List.Forall₂ (FilterPatched m rcs fc.name) fc.filters fc'.filters

/-- Back-patching of a listener: same name, address and remaining fields, filter chains
patched position by position. -/
def ListenerPatched (m : Marshal) (rcs : GoMap RouteConfiguration) (l l' : Listener) : Prop :=
  l'.name = l.name ∧ l'.address = l.address ∧ l'.rest = l.rest ∧
    List.Forall₂ (ChainPatched m rcs) l.filterChains l'.filterChains

/-- The first part of `Build`: the static resources before clusters and listeners are filled
in, holding the placeholder listener when loose fragments are stored, or the serialization
error. -/
def synthesizedResources (messageToAny : Marshal) (toAny : ProtoMessage → Any)
    (b : ConfigBuilder) : Except String StaticResources :=
  if b.filterConfigs.length > 0 ∨ b.routes.length > 0 then
    match messageToAny (placeholderHCM toAny b) with
    | .error e => .error ("failed to marshal HttpConnectionManager: " ++ e)
    | .ok hcmAny => .ok { listeners := [placeholderListener hcmAny] }
  else .ok {}

/-- The position, in listener / filter-chain order, of the first filter chain that lacks its
route configuration (the number of chains when there is none). -/
def firstMissingIndex (rcs : GoMap RouteConfiguration) (ls : List Listener) : Nat :=
  (allChains ls).findIdx (missingRouteConfig rcs)

/-- The text `e` contains the text `n`. -/
def Mentions (e n : String) : Prop := ∃ pre post : String, e = pre ++ n ++ post

/-- A serializer used to evaluate the assembler on concrete inputs: it always succeeds and
encodes the stat prefix and the name of the embedded route configuration. -/
def sampleMarshal : Marshal := fun h =>
  .ok { typeUrl := "type.googleapis.com/envoy.extensions.filters.network.http_connection_manager.v3.HttpConnectionManager"
        value := h.StatPrefix.length ::
          (match h.routeConfig with
           | none => []
           | some rc => rc.name.toList.map Char.toNat) }

/-- A serializer that fails on every message, as `utils.MessageToAny` does when the message
cannot be encoded. -/
def failingMarshal : Marshal := fun _ => .error "proto: cannot encode message"

/-- A conversion of filter configurations used to evaluate the assembler on concrete inputs. -/
def sampleToAny : ProtoMessage → Any := fun p => { typeUrl := p.typeName, value := p.fields }

/-- A listener with one filter chain "fc1" holding a TCP proxy filter and the connection
manager filter. -/
def sampleListener : Listener :=
  { name := "l1"
    address := some { address := "127.0.0.1", portValue := 8080 }
    filterChains :=
      [{ name := "fc1"
         filters := [{ name := "envoy.filters.network.tcp_proxy", typedConfig := none },
                     { name := "envoy.filters.network.http_connection_manager",
                       typedConfig := none }]
         rest := [] }]
    rest := [7] }

/-- A route configuration named "fc1". -/
def sampleRouteConfig : RouteConfiguration :=
  { name := "fc1", virtualHosts := [], rest := [1] }

/-- A cluster. -/
def sampleCluster : Cluster := { name := "c1", rest := [] }

/-- A filter configuration message. -/
def sampleFilterConfig : ProtoMessage :=
  { typeName := "type.googleapis.com/sample.Policy", fields := [4, 2] }

/-- A loose route. -/
def sampleRoute : Route := { name := "r1", rest := [] }

end bootstrap

namespace collections

/-! ## Data model of the composition root

The incremental-recomputation engine (`krt`), the cluster client and the index constructors of
`krtcollections` are external to `collections.go`. A collection or index is represented by the
record of how it was constructed; whether it currently reports synchronized is read from a
`SyncState`, which may be any assignment. Metrics registration has no effect on the values
modelled here and is left out. -/

/-- The fields of `apisettings.Settings` that the code reads. -/
structure Settings where
  EnableEnvoy : Bool
  EnableExperimentalGatewayAPIFeatures : Bool
  DiscoveryNamespaceSelectors : String
  deriving DecidableEq, Repr, Inhabited

/-- The `schema.GroupKind` key of the plugin maps. -/
structure GroupKind where
  Group : String
  Kind : String
  deriving DecidableEq, Repr

/-- The `apiclient.Client` handle. -/
structure Client where
  cluster : String
  deriving DecidableEq, Repr, Inhabited

/-- The `krtutil.KrtOptions` value. -/
structure KrtOptions where
  debugger : String
  deriving DecidableEq, Repr, Inhabited

/-- A `krt.Collection[T]` value, by the krt constructor that made it; `name` is the name
given through `KrtOptions.ToOptions` or `krt.WithName`. -/
inductive Collection where
  /-- The result of `krt.WrapClient` over an informer of the resource. -/
  | wrapClient (resource : String) (name : String)
  /-- The result of `krt.NewCollection` over the input collections. -/
  | derived (inputs : List Collection) (name : String)
  /-- A collection returned by a constructor of `krtcollections`, whose internals are not
  among the sources. -/
  | external (constructor : String)
  /-- The result of `krt.NewStaticCollection(synced, vals, opts...)`; `synced` is `none` for a
  nil syncer. -/
  | static (synced : Option String) (vals : List String) (name : String)
  /-- The result of `krt.JoinCollection(members, opts...)`. -/
  | join (members : List Collection) (name : String)

/-- The `krtcollections.RefGrantIndex`, made by `NewRefGrantIndex(refgrants)`. -/
structure RefGrantIndex where
  refgrants : Collection

/-- The `krtcollections.SecretIndex`, made by `NewSecretIndex(secrets, refgrants)`. -/
structure SecretIndex where
  secrets : List (GroupKind × Collection)
  refgrants : RefGrantIndex

/-- A policy plugin of the registry: `Policies` may be nil. -/
structure PolicyPlugin where
  Policies : Option Collection

/-- A backend plugin of the registry: `Backends` and `Endpoints` may be nil. -/
structure BackendPlugin where
  Backends : Option Collection
  AliasKinds : List GroupKind
  Endpoints : Option Collection

/-- The `pluginsdk.Plugin` registry; each Go map is listed in the order in which a `range`
loop visits it (any order is possible). -/
structure Plugin where
  ContributesPolicies : List (GroupKind × PolicyPlugin)
  ContributesBackends : List (GroupKind × BackendPlugin)

/-- The `krtcollections.PolicyIndex`, made by
`NewPolicyIndex(krtopts, contributesPolicies, settings)`. -/
structure PolicyIndex where
  contributesPolicies : List (GroupKind × PolicyPlugin)
  settings : Settings

/-- The `krtcollections.BackendIndex`, made by `NewBackendIndex(krtopts, policies, refgrants)`
and extended by `AddBackends`. -/
structure BackendIndex where
  policies : Option PolicyIndex
  refgrants : Option RefGrantIndex
  backends : List (GroupKind × Collection × List GroupKind)

/-- The `krtcollections.RoutesIndex`, made by `NewRoutesIndex`. -/
structure RoutesIndex where
  httpRoutes : Collection
  grpcRoutes : Collection
  tcpRoutes : Collection
  tlsRoutes : Collection
  policies : Option PolicyIndex
  backends : BackendIndex
  refgrants : Option RefGrantIndex
  settings : Settings

/-- The `option` struct: the two pluggable gateway transformation functions, by name. -/
structure option where
  gatewayForDeployerTransformationFunc : Option String
  gatewayForEnvoyTransformationFunc : Option String
  deriving DecidableEq, Repr, Inhabited

/-- The `krtcollections.GatewayIndexConfig` struct; the interface-typed `ListenerSets` may be
nil. -/
structure GatewayIndexConfig where
  KrtOpts : KrtOptions
  ControllerNames : List String
  EnvoyControllerName : String
  PolicyIndex : Option PolicyIndex
  Gateways : Collection
  ListenerSets : Option Collection
  GatewayClasses : Collection
  Namespaces : Collection
  GatewaysForDeployerTransformationFunc : Option String
  GatewaysForEnvoyTransformationFunc : Option String

/-- The `krtcollections.GatewayIndex`, made by `NewGatewayIndex(config)`; `Gateways` is its
derived collection of gateways. -/
structure GatewayIndex where
  config : GatewayIndexConfig
  Gateways : Collection

/-- The `CommonCollections` struct; pointer- and interface-typed fields may be nil. -/
structure CommonCollections where
  Client : Client
  KrtOpts : KrtOptions
  Secrets : Option SecretIndex
  BackendIndex : Option BackendIndex
  Routes : Option RoutesIndex
  Namespaces : Option Collection
  Endpoints : Option Collection
  GatewayIndex : Option GatewayIndex
  GatewayExtensions : Option Collection
  Services : Option Collection
  ServiceEntries : Option Collection
  WrappedPods : Option Collection
  LocalityPods : Option Collection
  RefGrants : Option RefGrantIndex
  ConfigMaps : Option Collection
  DiscoveryNamespacesFilter : Option String
  Settings : Settings
  ControllerName : String
  AgentgatewayControllerName : String
  options : option
  deriving Inhabited

/-- What every collection and index currently answers to `HasSynced()`. -/
structure SyncState where
  collection : Collection → Bool
  secretIndex : SecretIndex → Bool
  backendIndex : BackendIndex → Bool
  routesIndex : RoutesIndex → Bool
  refGrantIndex : RefGrantIndex → Bool

/-- Modelled from the spec: `HasSynced` of a `krt` collection ("static(initial set) →
permanently-synchronized collection"): a static collection built with a nil syncer reports
synchronized at once; any other collection answers as the engine currently says. -/
def Collection.HasSynced (σ : SyncState) : Collection → Bool
  | .static none _ _ => true
  | c => σ.collection c

/-- Modelled from the spec: the elements of a `krt` collection ("static(initial set)"): a
static collection holds its initial values; any other collection holds what the engine
currently derives. -/
def Collection.List (contents : Collection → List String) : Collection → List String
  | .static _ vals _ => vals
  | c => contents c

/-- The Go expression `x != nil && synced(x)`. -/
def presentAnd {α : Type} (x : Option α) (synced : α → Bool) : Bool :=
  match x with
  | none => false
  | some v => synced v

/-- The method `CommonCollections.HasSynced`: every checked field is non-nil and reports
synchronized. -/
def CommonCollections.HasSynced (σ : SyncState) (c : CommonCollections) : Bool :=
  presentAnd c.Secrets σ.secretIndex &&
  presentAnd c.BackendIndex σ.backendIndex &&
  presentAnd c.Routes σ.routesIndex &&
  presentAnd c.WrappedPods (Collection.HasSynced σ) &&
  presentAnd c.LocalityPods (Collection.HasSynced σ) &&
  presentAnd c.RefGrants σ.refGrantIndex &&
  presentAnd c.ConfigMaps (Collection.HasSynced σ) &&
  presentAnd c.GatewayExtensions (Collection.HasSynced σ) &&
  presentAnd c.Services (Collection.HasSynced σ) &&
  presentAnd c.ServiceEntries (Collection.HasSynced σ) &&
  presentAnd c.GatewayIndex (fun g => g.Gateways.HasSynced σ)

/-- The Go type `Option`, a function that edits the `option` struct. -/
abbrev OptionFunc := option → option

/-- The option `WithGatewayForDeployerTransformationFunc`. -/
def WithGatewayForDeployerTransformationFunc (f : String) : OptionFunc :=
  fun o => { o with gatewayForDeployerTransformationFunc := some f }

/-- The option `WithGatewayForEnvoyTransformationFunc`. -/
def WithGatewayForEnvoyTransformationFunc (f : String) : OptionFunc :=
  fun o => { o with gatewayForEnvoyTransformationFunc := some f }

/-- Modelled from the spec: `krtcollections.NewNamespaceCollection` is not among the sources;
it yields the collection of namespace metadata (the namespace client it also returns is left
out). -/
def NewNamespaceCollection : Collection := .external "NewNamespaceCollection"

/-- Modelled from the spec: `krtcollections.NewGatewayIndex` is not among the sources; the
index is "built from raw gateway objects, an optional listener-set collection, gateway
classes, namespace metadata", and keeps its configuration. -/
def NewGatewayIndex (config : GatewayIndexConfig) : GatewayIndex :=
  { config := config
    Gateways := .derived
      (config.Gateways :: config.GatewayClasses :: config.Namespaces ::
        config.ListenerSets.toList) "gateways" }

/-- The function `NewCommonCollections` initializes the core krt collections. The constructor
of the discovery-namespace filter, `newDiscoveryNamespacesFilter`, is passed in; it may fail. -/
def NewCommonCollections (newDiscoveryNamespacesFilter : String → Except String String)
    (krtOptions : KrtOptions) (client : Client) (controllerName : String)
    (agentGatewayControllerName : String) (settings : Settings) (opts : List OptionFunc) :
    Except String CommonCollections :=
  let options : option := opts.foldl (fun o fn => fn o)
    { gatewayForDeployerTransformationFunc := none, gatewayForEnvoyTransformationFunc := none }
  let namespaces := NewNamespaceCollection
  match newDiscoveryNamespacesFilter settings.DiscoveryNamespaceSelectors with
  | .error err => .error err
  | .ok discoveryNamespacesFilter =>
    let k8sSecretsRaw := Collection.wrapClient "Secret" "Secrets"
    let k8sSecrets := Collection.derived [k8sSecretsRaw] "secrets"
    let secrets : List (GroupKind × Collection) :=
      [({ Group := "", Kind := "Secret" }, k8sSecrets)]
    let refgrantsCol := Collection.wrapClient "ReferenceGrant" "RefGrants"
    let refgrants : RefGrantIndex := { refgrants := refgrantsCol }
    let services := Collection.wrapClient "Service" "Services"
    let serviceEntries := Collection.wrapClient "ServiceEntry" "ServiceEntries"
    let cfgmaps := Collection.wrapClient "ConfigMap" "ConfigMaps"
    let gwExts := Collection.external "NewGatewayExtensionsCollection"
    let localityPods := Collection.external "NewPodsCollection.localityPods"
    let wrappedPods := Collection.external "NewPodsCollection.wrappedPods"
    .ok
      { Client := client
        KrtOpts := krtOptions
        Secrets := some { secrets := secrets, refgrants := refgrants }
        LocalityPods := some localityPods
        WrappedPods := some wrappedPods
        RefGrants := some refgrants
        Settings := settings
        Namespaces := some namespaces
        Services := some services
        ServiceEntries := some serviceEntries
        ConfigMaps := some cfgmaps
        GatewayExtensions := some gwExts
        DiscoveryNamespacesFilter := some discoveryNamespacesFilter
        ControllerName := controllerName
        AgentgatewayControllerName := agentGatewayControllerName
        options := options
        BackendIndex := none
        Routes := none
        Endpoints := none
        GatewayIndex := none }

/-- The function `initBackends`: register the backends of every plugin whose `Backends` is
not nil. -/
def initBackends (plugins : Plugin) (backendIndex : BackendIndex) : BackendIndex :=
  plugins.ContributesBackends.foldl
    (fun bi kv =>
      match kv.2.Backends with
      | some backends => { bi with backends := bi.backends ++ [(kv.1, backends, kv.2.AliasKinds)] }
      | none => bi)
    backendIndex

/-- The slice `allEndpoints` when the loop of `initEndpoints` is done. -/
def allEndpoints (plugins : Plugin) : List Collection :=
  plugins.ContributesBackends.foldl
    (fun all kv =>
      match kv.2.Endpoints with
      | some endpoints => all ++ [endpoints]
      | none => all)
    []

/-- The function `initEndpoints`: join the endpoint collections of the plugins. -/
def initEndpoints (plugins : Plugin) (_krtopts : KrtOptions) : Collection :=
  .join (allEndpoints plugins) "EndpointIRs"

/-- The four results of `InitCollections`. -/
structure InitResult where
  gateways : Option GatewayIndex
  routes : Option RoutesIndex
  backends : Option BackendIndex
  endpoints : Option Collection

/-- The method `InitCollections`: build the gateway index and, when Envoy is enabled, the
routes index, the backend index and the joined endpoints. -/
def CommonCollections.InitCollections (c : CommonCollections) (controllerNames : List String)
    (plugins : Plugin) (globalSettings : collections.Settings) : InitResult :=
  let gatewayClasses := Collection.wrapClient "GatewayClass" "KubeGatewayClasses"
  let namespaces := NewNamespaceCollection
  let kubeRawGateways := Collection.wrapClient "Gateway" "KubeGateways"
  let kubeRawListenerSets : Option Collection :=
    if globalSettings.EnableExperimentalGatewayAPIFeatures then
      some (.wrapClient "XListenerSet" "KubeListenerSets")
    else
      some (.static none [] "disable/KubeListenerSets")
  let policies : Option PolicyIndex :=
    if globalSettings.EnableEnvoy then
      some { contributesPolicies := plugins.ContributesPolicies, settings := globalSettings }
    else none
  let gatewayIndexConfig : GatewayIndexConfig :=
    { KrtOpts := c.KrtOpts
      ControllerNames := controllerNames
      EnvoyControllerName := c.ControllerName
      PolicyIndex := policies
      Gateways := kubeRawGateways
      ListenerSets := kubeRawListenerSets
      GatewayClasses := gatewayClasses
      Namespaces := namespaces
      GatewaysForDeployerTransformationFunc := c.options.gatewayForDeployerTransformationFunc
      GatewaysForEnvoyTransformationFunc := c.options.gatewayForEnvoyTransformationFunc }
  let gateways := NewGatewayIndex gatewayIndexConfig
  if ¬ globalSettings.EnableEnvoy then
    { gateways := some gateways, routes := none, backends := none, endpoints := none }
  else
    let httpRoutes := Collection.wrapClient "HTTPRoute" "HTTPRoute"
    let tcproutes := Collection.wrapClient "TCPRoute" "TCPRoute"
    let tlsRoutes := Collection.wrapClient "TLSRoute" "TLSRoute"
    let grpcRoutes := Collection.wrapClient "GRPCRoute" "GRPCRoute"
    let backendIndex := initBackends plugins
      { policies := policies, refgrants := c.RefGrants, backends := [] }
    let endpointIRs := initEndpoints plugins c.KrtOpts
    let routes : RoutesIndex :=
      { httpRoutes := httpRoutes, grpcRoutes := grpcRoutes, tcpRoutes := tcproutes,
        tlsRoutes := tlsRoutes, policies := policies, backends := backendIndex,
        refgrants := c.RefGrants, settings := globalSettings }
    { gateways := some gateways, routes := some routes, backends := some backendIndex,
      endpoints := some endpointIRs }

/-- Modelled from the spec: `smallset.New` of the istio library is not among the sources; it
builds the set of the given names, stored sorted and without duplicates ("the configured
controller-name set"). -/
def smallset.New (a b : String) : List String :=
  if a = b then [a] else if a < b then [a, b] else [b, a]

/-- The method `InitPlugins` sets up the collections that rely on plugins. -/
def CommonCollections.InitPlugins (c : CommonCollections) (mergedPlugins : Plugin)
    (globalSettings : collections.Settings) : CommonCollections :=
  let r := c.InitCollections (smallset.New c.ControllerName c.AgentgatewayControllerName)
    mergedPlugins globalSettings
  { c with
    BackendIndex := r.backends
    Routes := r.routes
    Endpoints := r.endpoints
    GatewayIndex := r.gateways }

/-! ## Specification-side definitions -/

/-- Every index owned by the composition root is present and reports synchronized: the
Secret Index, the Reference-Grant Index, the Backend Index, the Endpoints Collection, the
Routes Index and the Gateway Index (through its gateways). -/
def ownedIndexesSynced (σ : SyncState) (c : CommonCollections) : Bool :=
  presentAnd c.Secrets σ.secretIndex &&
  presentAnd c.RefGrants σ.refGrantIndex &&
  presentAnd c.BackendIndex σ.backendIndex &&
  presentAnd c.Endpoints (Collection.HasSynced σ) &&
  presentAnd c.Routes σ.routesIndex &&
  presentAnd c.GatewayIndex (fun g => g.Gateways.HasSynced σ)

/-- Settings with both features enabled. -/
def sampleSettings : Settings :=
  { EnableEnvoy := true, EnableExperimentalGatewayAPIFeatures := true,
    DiscoveryNamespaceSelectors := "[]" }

/-- Settings with the Envoy feature disabled. -/
def envoyDisabled : Settings :=
  { EnableEnvoy := false, EnableExperimentalGatewayAPIFeatures := true,
    DiscoveryNamespaceSelectors := "[]" }

/-- Settings with the experimental Gateway API features disabled. -/
def experimentalDisabled : Settings :=
  { EnableEnvoy := true, EnableExperimentalGatewayAPIFeatures := false,
    DiscoveryNamespaceSelectors := "[]" }

/-- A registry with two backend plugins, one of which contributes endpoints. -/
def samplePlugins : Plugin :=
  { ContributesPolicies := []
    ContributesBackends :=
      [({ Group := "", Kind := "Service" },
        { Backends := some (.external "k8s.Backends"), AliasKinds := [],
          Endpoints := some (.external "k8s.Endpoints") }),
       ({ Group := "gateway.kgateway.dev", Kind := "Backend" },
        { Backends := some (.external "backend.Backends"), AliasKinds := [],
          Endpoints := none })] }

/-- A discovery-filter constructor that accepts every selector configuration. -/
def sampleFilter : String → Except String String := fun selectors => .ok selectors

/-- The composition root after phase 1, on sample inputs. -/
def samplePhaseOne : CommonCollections :=
  match NewCommonCollections sampleFilter { debugger := "" } { cluster := "kind" }
      "kgateway.dev/kgateway" "kgateway.dev/agentgateway" sampleSettings [] with
  | .ok c => c
  | .error _ => default

/-- A synchronization state in which everything reports synchronized except joined
collections. -/
def joinsNotSynced : SyncState :=
  { collection := fun c =>
      match c with
      | .join _ _ => false
      | _ => true
    secretIndex := fun _ => true
    backendIndex := fun _ => true
    routesIndex := fun _ => true
    refGrantIndex := fun _ => true }

end collections

namespace bootstrap

/-! ## Lemmas on maps -/

theorem mapGet_eq_none_iff {V : Type} (m : GoMap V) (k : String) :
    mapGet m k = none ↔ k ∉ m.map Prod.fst := by
  induction m with
  | nil => simp [mapGet]
  | cons kv m ih =>
    obtain ⟨k', v⟩ := kv
    by_cases h : k' = k
    · simp [mapGet, h]
    · simp [mapGet, h, ih, Ne.symm h]

theorem mapSet_mapSet_same {V : Type} (m : GoMap V) (k : String) (v v' : V) :
    mapSet (mapSet m k v) k v' = mapSet m k v' := by
  induction m with
  | nil => simp [mapSet]
  | cons kv m ih =>
    obtain ⟨k0, v0⟩ := kv
    by_cases h : k0 = k
    · simp [mapSet, h]
    · simp [mapSet, h, ih]

theorem mapSet_comm {V : Type} (m : GoMap V) (k k' : String) (v v' : V) (hne : k ≠ k')
    (hk : k ∈ m.map Prod.fst) :
    mapSet (mapSet m k v) k' v' = mapSet (mapSet m k' v') k v := by
  induction m with
  | nil => simp at hk
  | cons kv m ih =>
    obtain ⟨k0, v0⟩ := kv
    by_cases h : k0 = k
    · subst h
      simp [mapSet, hne]
    · by_cases h' : k0 = k'
      · subst h'
        simp [mapSet, h]
      · have hk' : k ∈ m.map Prod.fst := by
          simp only [List.map_cons, List.mem_cons] at hk
          rcases hk with hk | hk
          · exact absurd hk.symm h
          · exact hk
        simp [mapSet, h, h', ih hk']

theorem mem_keys_mapSet_self {V : Type} (m : GoMap V) (k : String) (v : V) :
    k ∈ (mapSet m k v).map Prod.fst := by
  induction m with
  | nil => simp [mapSet]
  | cons kv m ih =>
    obtain ⟨k0, v0⟩ := kv
    by_cases h : k0 = k
    · simp [mapSet, h]
    · simp only [mapSet, h, if_false, List.map_cons, List.mem_cons]
      exact Or.inr ih

theorem mem_keys_mapSet {V : Type} (m : GoMap V) (k k' : String) (v' : V)
    (hk : k ∈ m.map Prod.fst) : k ∈ (mapSet m k' v').map Prod.fst := by
  induction m with
  | nil => simp at hk
  | cons kv m ih =>
    obtain ⟨k0, v0⟩ := kv
    simp only [List.map_cons, List.mem_cons] at hk
    by_cases h : k0 = k'
    · subst h
      rcases hk with hk | hk
      · simp [mapSet, hk]
      · simp only [mapSet, if_true, List.map_cons, List.mem_cons]
        exact Or.inr hk
    · simp only [mapSet, h, if_false, List.map_cons, List.mem_cons]
      rcases hk with hk | hk
      · exact Or.inl hk
      · exact Or.inr (ih hk)

theorem mapGet_mapSet_self {V : Type} (m : GoMap V) (k : String) (v : V) :
    mapGet (mapSet m k v) k = some v := by
  induction m with
  | nil => simp [mapSet, mapGet]
  | cons kv m ih =>
    obtain ⟨k0, v0⟩ := kv
    by_cases h : k0 = k
    · simp [mapSet, mapGet, h]
    · simp [mapSet, mapGet, h, ih]

theorem mapGet_mapSet_ne {V : Type} (m : GoMap V) (k k' : String) (v' : V) (hne : k' ≠ k) :
    mapGet (mapSet m k' v') k = mapGet m k := by
  induction m with
  | nil => simp [mapSet, mapGet, hne]
  | cons kv m ih =>
    obtain ⟨k0, v0⟩ := kv
    by_cases h : k0 = k'
    · subst h
      simp [mapSet, mapGet, hne]
    · by_cases h2 : k0 = k
      · subst h2
        simp [mapSet, mapGet, h]
      · simp [mapSet, mapGet, h, h2, ih]

theorem mapSet_of_mapGet {V : Type} (m : GoMap V) (k : String) (v : V)
    (h : mapGet m k = some v) : mapSet m k v = m := by
  induction m with
  | nil => simp [mapGet] at h
  | cons kv m ih =>
    obtain ⟨k0, v0⟩ := kv
    by_cases hk : k0 = k
    · simp only [mapGet, hk, if_true, Option.some.injEq] at h
      simp [mapSet, hk, h]
    · simp only [mapGet, hk, if_false] at h
      simp [mapSet, hk, ih h]

/-- The loop `for _, x := range xs { m[key x] = x }`. -/
theorem foldl_mapSet_keys {V : Type} (key : V → String) (xs : List V) (m : GoMap V)
    (k : String) (hk : k ∈ m.map Prod.fst) :
    k ∈ (xs.foldl (fun m x => mapSet m (key x) x) m).map Prod.fst := by
  induction xs generalizing m with
  | nil => exact hk
  | cons x xs ih => exact ih _ (mem_keys_mapSet m k (key x) x hk)

theorem foldl_mapSet_get_of_not_mem {V : Type} (key : V → String) (xs : List V) (m : GoMap V)
    (k : String) (hk : ∀ x ∈ xs, key x ≠ k) :
    mapGet (xs.foldl (fun m x => mapSet m (key x) x) m) k = mapGet m k := by
  induction xs generalizing m with
  | nil => rfl
  | cons x xs ih =>
    simp only [List.foldl_cons]
    rw [ih _ (fun y hy => hk y (List.mem_cons_of_mem _ hy))]
    exact mapGet_mapSet_ne m k (key x) x (hk x (List.mem_cons_self _ _))

theorem foldl_mapSet_absorb {V : Type} (key : V → String) (xs : List V) (m : GoMap V)
    (k : String) (v : V) (hk : k ∈ m.map Prod.fst) (hx : ∃ x ∈ xs, key x = k) :
    xs.foldl (fun m x => mapSet m (key x) x) (mapSet m k v) =
      xs.foldl (fun m x => mapSet m (key x) x) m := by
  induction xs generalizing m with
  | nil => simp at hx
  | cons x xs ih =>
    simp only [List.foldl_cons]
    by_cases h : key x = k
    · rw [h, mapSet_mapSet_same]
    · have hx' : ∃ y ∈ xs, key y = k := by
        obtain ⟨y, hy, hyk⟩ := hx
        rcases List.mem_cons.1 hy with rfl | hy
        · exact absurd hyk h
        · exact ⟨y, hy, hyk⟩
      rw [mapSet_comm m k (key x) v x (Ne.symm h) hk]
      exact ih _ (mem_keys_mapSet m k (key x) x hk) hx'

theorem foldl_mapSet_idem {V : Type} (key : V → String) (xs : List V) (m : GoMap V) :
    xs.foldl (fun m x => mapSet m (key x) x) (xs.foldl (fun m x => mapSet m (key x) x) m) =
      xs.foldl (fun m x => mapSet m (key x) x) m := by
  induction xs generalizing m with
  | nil => rfl
  | cons x xs ih =>
    simp only [List.foldl_cons]
    by_cases hx : ∃ y ∈ xs, key y = key x
    · rw [foldl_mapSet_absorb key xs _ (key x) x
        (foldl_mapSet_keys key xs _ (key x) (mem_keys_mapSet_self m (key x) x)) hx]
      exact ih _
    · have hx' : ∀ y ∈ xs, key y ≠ key x := fun y hy hyk => hx ⟨y, hy, hyk⟩
      have hg := foldl_mapSet_get_of_not_mem key xs (mapSet m (key x) x) (key x) hx'
      rw [mapGet_mapSet_self] at hg
      rw [mapSet_of_mapGet _ _ _ hg]
      exact ih _

/-! ## The back-patch loops -/

theorem patchFilters_err (m : Marshal) (hm : ∀ h, ∃ a, m h = .ok a)
    (rcs : GoMap RouteConfiguration) (n : String) (fs : List Filter) :
    (patchFilters m rcs n fs).2 =
      if missingRouteConfig rcs { name := n, filters := fs, rest := [] } = true
      then some ("no RouteConfiguration found with name " ++ n) else none := by
  induction fs with
  | nil => simp [patchFilters, missingRouteConfig]
  | cons f fs ih =>
    unfold patchFilters
    by_cases hf : f.name = "envoy.filters.network.http_connection_manager"
    · cases hg : mapGet rcs n with
      | none => simp [hf, hg, missingRouteConfig]
      | some rc =>
        obtain ⟨a, ha⟩ := hm { StatPrefix := "placeholder", routeConfig := some rc }
        simp only [hf, if_true, ha]
        rw [ih]
        simp [missingRouteConfig, hg]
    · simp only [hf, if_false]
      rw [ih]
      simp [missingRouteConfig, hf]

theorem missingRouteConfig_congr (rcs : GoMap RouteConfiguration) (fc : FilterChain) :
    missingRouteConfig rcs { name := fc.name, filters := fc.filters, rest := [] } =
      missingRouteConfig rcs fc := rfl

theorem patchChains_err (m : Marshal) (hm : ∀ h, ∃ a, m h = .ok a)
    (rcs : GoMap RouteConfiguration) (fcs : List FilterChain) :
    (patchChains m rcs fcs).2 =
      (fcs.find? (missingRouteConfig rcs)).map
        (fun fc => "no RouteConfiguration found with name " ++ fc.name) := by
  induction fcs with
  | nil => simp [patchChains]
  | cons fc fcs ih =>
    have h := patchFilters_err m hm rcs fc.name fc.filters
    rw [missingRouteConfig_congr] at h
    unfold patchChains
    by_cases hc : missingRouteConfig rcs fc = true
    · simp only [hc, if_true] at h
      simp [h, hc, List.find?_cons]
    · simp only [hc] at h
      simp only [Bool.false_eq_true, if_false] at h
      simp [h, hc, List.find?_cons, ih]

theorem patchListeners_err (m : Marshal) (hm : ∀ h, ∃ a, m h = .ok a)
    (rcs : GoMap RouteConfiguration) (ls : List Listener) :
    (patchListeners m rcs ls).2 =
      (firstMissing rcs ls).map
        (fun fc => "no RouteConfiguration found with name " ++ fc.name) := by
  induction ls with
  | nil => simp [patchListeners, firstMissing, allChains]
  | cons l ls ih =>
    have h := patchChains_err m hm rcs l.filterChains
    unfold patchListeners
    simp only [firstMissing, allChains, List.flatMap_cons, List.find?_append] at ih ⊢
    cases hc : l.filterChains.find? (missingRouteConfig rcs) with
    | some fc => simp [h, hc]
    | none => simp [h, hc, ih]

/-! ## `Build` when serialization succeeds -/

theorem firstMissing_eq_none_iff (rcs : GoMap RouteConfiguration) (ls : List Listener) :
    firstMissing rcs ls = none ↔
      ¬ ∃ l ∈ ls, ∃ fc ∈ l.filterChains,
          (∃ f ∈ fc.filters, f.name = "envoy.filters.network.http_connection_manager") ∧
          fc.name ∉ rcs.map Prod.fst := by
  simp only [firstMissing, allChains, List.find?_eq_none, List.mem_flatMap, missingRouteConfig,
    Bool.and_eq_true, List.any_eq_true, decide_eq_true_eq, Option.isNone_iff_eq_none,
    mapGet_eq_none_iff]
  constructor
  · rintro h ⟨l, hl, fc, hfc, hf, hk⟩
    exact h fc ⟨l, hl, hfc⟩ ⟨hf, hk⟩
  · rintro h fc ⟨l, hl, hfc⟩ ⟨hf, hk⟩
    exact h ⟨l, hl, fc, hfc, hf, hk⟩

theorem Build_err (m : Marshal) (toAny : ProtoMessage → Any) (hm : ∀ h, ∃ a, m h = .ok a)
    (b : ConfigBuilder) :
    (b.Build m toAny).1.err =
      (firstMissing b.routeConfigurations b.listeners).map
        (fun fc => "no RouteConfiguration found with name " ++ fc.name) := by
  obtain ⟨a, ha⟩ := hm (placeholderHCM toAny b)
  have h := patchListeners_err m hm b.routeConfigurations b.listeners
  unfold ConfigBuilder.Build
  by_cases hl : b.listeners.length > 0
  · cases he : (patchListeners m b.routeConfigurations b.listeners).2 with
    | none => rw [he] at h; split_ifs <;> simp [ha, hl, he, ← h]
    | some e => rw [he] at h; split_ifs <;> simp [ha, hl, he, ← h]
  · have hnil : b.listeners = [] := by
      cases hb : b.listeners with
      | nil => rfl
      | cons x xs => simp [hb] at hl
    split_ifs <;> simp [ha, hl, hnil, firstMissing, allChains]

theorem Build_doc_none_iff (m : Marshal) (toAny : ProtoMessage → Any) (b : ConfigBuilder) :
    (b.Build m toAny).1.doc = none ↔ (b.Build m toAny).1.err ≠ none := by
  unfold ConfigBuilder.Build
  cases hs : (if b.filterConfigs.length > 0 ∨ b.routes.length > 0 then
      match m (placeholderHCM toAny b) with
      | .error e => Except.error ("failed to marshal HttpConnectionManager: " ++ e)
      | .ok hcmAny => Except.ok ({ listeners := [placeholderListener hcmAny] } : StaticResources)
    else Except.ok {}) with
  | error e => simp
  | ok sr =>
    by_cases hl : b.listeners.length > 0
    · cases he : (patchListeners m b.routeConfigurations b.listeners).2 <;> simp [hl, he]
    · simp [hl]

/-- C1: when serialization succeeds, `Build` returns an error exactly when some stored listener
has a filter chain holding a connection-manager filter whose chain name is the name of no
stored route configuration; the error then mentions the name of the first such chain in
listener / filter-chain order and the returned document is nil (and without an error a
document is returned). -/
theorem C1_build_error_iff_missing_route_configuration
    (m : Marshal) (toAny : ProtoMessage → Any) (hm : ∀ h, ∃ a, m h = .ok a)
    (b : ConfigBuilder) :
    ((b.Build m toAny).1.err ≠ none ↔
        ∃ l ∈ b.listeners, ∃ fc ∈ l.filterChains,
          (∃ f ∈ fc.filters, f.name = "envoy.filters.network.http_connection_manager") ∧
          fc.name ∉ b.routeConfigurations.map Prod.fst) ∧
    (∀ e, (b.Build m toAny).1.err = some e →
        (b.Build m toAny).1.doc = none ∧
        ∃ fc, firstMissing b.routeConfigurations b.listeners = some fc ∧ Mentions e fc.name) ∧
    ((b.Build m toAny).1.err = none → (b.Build m toAny).1.doc ≠ none) := by
  have herr := Build_err m toAny hm b
  refine ⟨?_, ?_, ?_⟩
  · rw [herr, ← not_iff_not, not_not, Option.map_eq_none', firstMissing_eq_none_iff]
  · intro e he
    refine ⟨(Build_doc_none_iff m toAny b).2 (by simp [he]), ?_⟩
    rw [herr] at he
    cases hf : firstMissing b.routeConfigurations b.listeners with
    | none => simp [hf] at he
    | some fc =>
      simp only [hf, Option.map_some', Option.some.injEq] at he
      exact ⟨fc, rfl, "no RouteConfiguration found with name ", "", by simp [← he]⟩
  · intro he hd
    exact (Build_doc_none_iff m toAny b).1 hd he

/-- C1 at a concrete input: a listener whose chain "fc1" has no route configuration. -/
theorem C1_build_error_iff_missing_route_configuration_witness :
    (∀ h, ∃ a, sampleMarshal h = .ok a) ∧
    ((New.AddListener [sampleListener]).Build sampleMarshal sampleToAny).1.err =
      some "no RouteConfiguration found with name fc1" ∧
    ((New.AddListener [sampleListener]).Build sampleMarshal sampleToAny).1.doc = none :=
  have hm : ∀ h, ∃ a, sampleMarshal h = .ok a := fun h => ⟨_, rfl⟩
  have h := C1_build_error_iff_missing_route_configuration sampleMarshal sampleToAny hm
    (New.AddListener [sampleListener])
  ⟨hm, by decide, (h.2.1 "no RouteConfiguration found with name fc1" (by decide)).1⟩

/-! ## Successful back-patching -/

theorem patchFilters_ok (m : Marshal) (rcs : GoMap RouteConfiguration) (n : String)
    (fs : List Filter) (h : (patchFilters m rcs n fs).2 = none) :
    List.Forall₂ (FilterPatched m rcs n) fs (patchFilters m rcs n fs).1 := by
  induction fs with
  | nil => simp [patchFilters]
  | cons f fs ih =>
    unfold patchFilters at h ⊢
    by_cases hf : f.name = "envoy.filters.network.http_connection_manager"
    · simp only [hf, if_true] at h ⊢
      cases hg : mapGet rcs n with
      | none => simp [hg] at h
      | some rc =>
        simp only [hg] at h ⊢
        cases hq : m { StatPrefix := "placeholder", routeConfig := some rc } with
        | error e => simp [hq] at h
        | ok a =>
          simp only [hq] at h ⊢
          exact List.Forall₂.cons (by simp [FilterPatched, hf, hg, hq, HTTPConnectionManager])
            (ih h)
    · simp only [hf, if_false] at h ⊢
      exact List.Forall₂.cons (by simp [FilterPatched, hf]) (ih h)

theorem patchChains_ok (m : Marshal) (rcs : GoMap RouteConfiguration)
    (fcs : List FilterChain) (h : (patchChains m rcs fcs).2 = none) :
    List.Forall₂ (ChainPatched m rcs) fcs (patchChains m rcs fcs).1 := by
  induction fcs with
  | nil => simp [patchChains]
  | cons fc fcs ih =>
    unfold patchChains at h ⊢
    cases he : (patchFilters m rcs fc.name fc.filters).2 with
    | some e => simp [he] at h
    | none =>
      simp only [he] at h ⊢
      exact List.Forall₂.cons ⟨rfl, rfl, patchFilters_ok m rcs fc.name fc.filters he⟩ (ih h)

theorem patchListeners_ok (m : Marshal) (rcs : GoMap RouteConfiguration)
    (ls : List Listener) (h : (patchListeners m rcs ls).2 = none) :
    List.Forall₂ (ListenerPatched m rcs) ls (patchListeners m rcs ls).1 := by
  induction ls with
  | nil => simp [patchListeners]
  | cons l ls ih =>
    unfold patchListeners at h ⊢
    cases he : (patchChains m rcs l.filterChains).2 with
    | some e => simp [he] at h
    | none =>
      simp only [he] at h ⊢
      exact List.Forall₂.cons ⟨rfl, rfl, rfl, patchChains_ok m rcs l.filterChains he⟩ (ih h)

theorem Build_listeners_of_doc (m : Marshal) (toAny : ProtoMessage → Any) (b : ConfigBuilder)
    (doc : Bootstrap) (hl : b.listeners ≠ []) (hd : (b.Build m toAny).1.doc = some doc) :
    (patchListeners m b.routeConfigurations b.listeners).2 = none ∧
      doc.staticResources.listeners =
        (patchListeners m b.routeConfigurations b.listeners).1 := by
  have hlen : b.listeners.length > 0 := List.length_pos.2 hl
  unfold ConfigBuilder.Build at hd
  cases hs : (if b.filterConfigs.length > 0 ∨ b.routes.length > 0 then
      match m (placeholderHCM toAny b) with
      | .error e => Except.error ("failed to marshal HttpConnectionManager: " ++ e)
      | .ok hcmAny => Except.ok ({ listeners := [placeholderListener hcmAny] } : StaticResources)
    else Except.ok {}) with
  | error e => simp [hs] at hd
  | ok sr =>
    cases he : (patchListeners m b.routeConfigurations b.listeners).2 with
    | some e => simp [hs, hlen, he] at hd
    | none =>
      simp only [hs, hlen, he, if_true, Option.some.injEq] at hd
      subst hd
      exact ⟨rfl, rfl⟩

theorem patchFilters_of_stored (m : Marshal) (rcs : GoMap RouteConfiguration) (n : String)
    (rc : RouteConfiguration) (a : Any) (hg : mapGet rcs n = some rc)
    (hq : m { StatPrefix := "placeholder", routeConfig := some rc } = .ok a)
    (fs : List Filter) :
    patchFilters m rcs n fs =
      (fs.map (fun f =>
          if f.name = "envoy.filters.network.http_connection_manager"
          then { name := "envoy.filters.network.http_connection_manager", typedConfig := some a }
          else f), none) := by
  induction fs with
  | nil => simp [patchFilters]
  | cons f fs ih =>
    unfold patchFilters
    by_cases hf : f.name = "envoy.filters.network.http_connection_manager"
    · simp [hf, hg, hq, ih, HTTPConnectionManager]
    · simp [hf, ih]

/-- C2: when at least one listener is stored and `Build` returns a document, the document's
listeners are the stored listeners in order, each connection-manager filter of a chain named
`n` replaced by a filter of the same name whose typed configuration is the serialized
`HttpConnectionManager` embedding the route configuration stored under `n`, every other filter
unchanged in its position. In particular, after adding a cluster, a listener with a single
filter chain, and a route configuration named like that chain, `Build` succeeds with a
document whose sole listener is that listener with the chain's connection-manager filters
embedding exactly that route configuration. -/
theorem C2_build_backpatches_listeners (m : Marshal) (toAny : ProtoMessage → Any) :
    (∀ (b : ConfigBuilder) (doc : Bootstrap), b.listeners ≠ [] →
        (b.Build m toAny).1.doc = some doc →
        List.Forall₂ (ListenerPatched m b.routeConfigurations) b.listeners
          doc.staticResources.listeners) ∧
    (∀ (c : Cluster) (l : Listener) (fc : FilterChain) (rc : RouteConfiguration) (a : Any),
        l.filterChains = [fc] → rc.name = fc.name →
        m { StatPrefix := "placeholder", routeConfig := some rc } = .ok a →
        ((((New.AddClusters [c]).AddListener [l]).AddRouteConfigurations [rc]).Build
            m toAny).1 =
          { doc := some
              { node := validationNode
                staticResources :=
                  { listeners :=
                      [{ l with filterChains :=
                          [{ fc with filters := fc.filters.map (fun f =>
                              if f.name = "envoy.filters.network.http_connection_manager"
                              then { name := "envoy.filters.network.http_connection_manager"
                                     typedConfig := some a }
                              else f) }] }]
                    clusters := [c] } }
            err := none }) := by
  constructor
  · intro b doc hl hd
    obtain ⟨he, hls⟩ := Build_listeners_of_doc m toAny b doc hl hd
    rw [hls]
    exact patchListeners_ok m b.routeConfigurations b.listeners he
  · intro c l fc rc a hfc hn hq
    have hg : mapGet [(rc.name, rc)] fc.name = some rc := by simp [mapGet, hn]
    have hp := patchFilters_of_stored m [(rc.name, rc)] fc.name rc a hg hq fc.filters
    simp [ConfigBuilder.Build, ConfigBuilder.AddClusters, ConfigBuilder.AddListener,
      ConfigBuilder.AddRouteConfigurations, New, mapSet, patchListeners, patchChains, hfc, hp]

/-- C2 at a concrete input: a cluster, the listener with chain "fc1" and the route
configuration "fc1". -/
theorem C2_build_backpatches_listeners_witness :
    (((New.AddClusters [sampleCluster]).AddListener [sampleListener]).AddRouteConfigurations
        [sampleRouteConfig]).listeners ≠ [] ∧
    (∃ doc l', ((((New.AddClusters [sampleCluster]).AddListener
        [sampleListener]).AddRouteConfigurations [sampleRouteConfig]).Build
          sampleMarshal sampleToAny).1.doc = some doc ∧
      doc.staticResources.listeners = [l'] ∧
      ListenerPatched sampleMarshal [("fc1", sampleRouteConfig)] sampleListener l') :=
  ⟨by decide,
   have hd : ((((New.AddClusters [sampleCluster]).AddListener
        [sampleListener]).AddRouteConfigurations [sampleRouteConfig]).Build
          sampleMarshal sampleToAny).1 = _ :=
     (C2_build_backpatches_listeners sampleMarshal sampleToAny).2 sampleCluster sampleListener
       _ sampleRouteConfig _ rfl rfl rfl
   have hp := (C2_build_backpatches_listeners sampleMarshal sampleToAny).1
     (((New.AddClusters [sampleCluster]).AddListener [sampleListener]).AddRouteConfigurations
        [sampleRouteConfig]) _ (by decide) (congrArg BuildResult.doc hd)
   ⟨_, _, congrArg BuildResult.doc hd, rfl, by
     have h := List.forall₂_cons.1 hp
     exact h.1⟩⟩

/-! ## Fragment mode -/

/-- C3: when a filter configuration or a loose route is stored, no listener is stored and
serialization succeeds, `Build` returns a document with exactly one listener, on port 8081,
with exactly one filter chain holding exactly one connection-manager filter; its typed
configuration is the serialized `HttpConnectionManager` whose route configuration has exactly
one virtual host, with domains `["*"]`, whose per-filter typed configuration is the stored
filter configurations under their names and whose routes are the stored routes in order. -/
theorem C3_build_synthesizes_placeholder_listener
    (m : Marshal) (toAny : ProtoMessage → Any) (hm : ∀ h, ∃ a, m h = .ok a)
    (b : ConfigBuilder) (hfrag : b.filterConfigs ≠ [] ∨ b.routes ≠ [])
    (hl : b.listeners = []) :
    ∃ (doc : Bootstrap) (l : Listener) (sa : SocketAddress) (fc : FilterChain) (a : Any)
      (hcm : HttpConnectionManager) (rc : RouteConfiguration) (vh : VirtualHost),
      (b.Build m toAny).1 = { doc := some doc, err := none } ∧
      doc.staticResources.listeners = [l] ∧
      l.address = some sa ∧ sa.portValue = 8081 ∧
      l.filterChains = [fc] ∧
      fc.filters = [{ name := "envoy.filters.network.http_connection_manager",
                      typedConfig := some a }] ∧
      m hcm = .ok a ∧
      hcm.routeConfig = some rc ∧
      rc.virtualHosts = [vh] ∧
      vh.domains = ["*"] ∧
      vh.typedPerFilterConfig = b.filterConfigs.map (fun kv => (kv.1, toAny kv.2)) ∧
      vh.routes = b.routes := by
  obtain ⟨a, ha⟩ := hm (placeholderHCM toAny b)
  have hcond : b.filterConfigs.length > 0 ∨ b.routes.length > 0 := by
    rcases hfrag with h | h
    · exact Or.inl (List.length_pos.2 h)
    · exact Or.inr (List.length_pos.2 h)
  refine ⟨{ node := validationNode,
             staticResources := { listeners := [placeholderListener a], clusters := b.clusters } },
    placeholderListener a, _, _, a, placeholderHCM toAny b, _,
    placeholderVhost toAny b, ?_, rfl, rfl, rfl, rfl, rfl, ha, rfl, rfl, rfl, ?_, ?_⟩
  · cases hc : b.clusters with
    | nil => simp [ConfigBuilder.Build, hcond, ha, hl, hc]
    | cons x xs => simp [ConfigBuilder.Build, hcond, ha, hl, hc]
  · cases hf : b.filterConfigs with
    | nil => simp [placeholderVhost, hf]
    | cons x xs => simp [placeholderVhost, hf, ToAnyMap]
  · cases hr : b.routes with
    | nil => simp [placeholderVhost, hr]
    | cons x xs => simp [placeholderVhost, hr]

/-- C3 at a concrete input: one filter configuration and nothing else. -/
theorem C3_build_synthesizes_placeholder_listener_witness :
    (∀ h, ∃ a, sampleMarshal h = .ok a) ∧
    ((New.AddFilterConfig "f1" sampleFilterConfig).filterConfigs ≠ [] ∨
      (New.AddFilterConfig "f1" sampleFilterConfig).routes ≠ []) ∧
    (New.AddFilterConfig "f1" sampleFilterConfig).listeners = [] ∧
    ∃ doc, ((New.AddFilterConfig "f1" sampleFilterConfig).Build sampleMarshal sampleToAny).1 =
      { doc := some doc, err := none } :=
  have hm : ∀ h, ∃ a, sampleMarshal h = .ok a := fun h => ⟨_, rfl⟩
  ⟨hm, Or.inl (by decide), rfl,
   match C3_build_synthesizes_placeholder_listener sampleMarshal sampleToAny hm
      (New.AddFilterConfig "f1" sampleFilterConfig) (Or.inl (by decide)) rfl with
   | ⟨doc, _, _, _, _, _, _, _, hb, _⟩ => ⟨doc, hb⟩⟩

/-! ## Fragments combined with full listeners -/

/-- C10: when at least one listener is stored and serialization succeeds, `Build` gives the
same result (document and error) as for the same builder with all filter configurations and
loose routes removed; a returned document's listeners are the stored listeners back-patched,
one for one and in order, so no synthesized placeholder listener is among them. -/
theorem C10_fragments_ignored_when_listeners_present
    (m : Marshal) (toAny : ProtoMessage → Any) (hm : ∀ h, ∃ a, m h = .ok a)
    (b : ConfigBuilder) (hl : b.listeners ≠ []) :
    (b.Build m toAny).1 =
        (({ b with filterConfigs := [], routes := [] } : ConfigBuilder).Build m toAny).1 ∧
    (∀ doc, (b.Build m toAny).1.doc = some doc →
        doc.staticResources.listeners.length = b.listeners.length ∧
        List.Forall₂ (ListenerPatched m b.routeConfigurations) b.listeners
          doc.staticResources.listeners) := by
  constructor
  · obtain ⟨a, ha⟩ := hm (placeholderHCM toAny b)
    have hlen : b.listeners.length > 0 := List.length_pos.2 hl
    by_cases hcond : b.filterConfigs.length > 0 ∨ b.routes.length > 0 <;>
    by_cases hc : b.clusters.length > 0 <;>
    cases he : (patchListeners m b.routeConfigurations b.listeners).2 <;>
    simp [ConfigBuilder.Build, hcond, hc, ha, hlen, he]
  · intro doc hd
    have h := (Build_listeners_of_doc m toAny b doc hl hd)
    have hp := patchListeners_ok m b.routeConfigurations b.listeners h.1
    rw [← h.2] at hp
    exact ⟨hp.length_eq.symm, hp⟩

/-- C10 at a concrete input: a filter configuration, a loose route, a listener and its route
configuration. -/
theorem C10_fragments_ignored_when_listeners_present_witness :
    (∀ h, ∃ a, sampleMarshal h = .ok a) ∧
    ((((New.AddFilterConfig "f1" sampleFilterConfig).AddRoutes [sampleRoute]).AddListener
        [sampleListener]).AddRouteConfigurations [sampleRouteConfig]).listeners ≠ [] ∧
    (((((New.AddFilterConfig "f1" sampleFilterConfig).AddRoutes [sampleRoute]).AddListener
        [sampleListener]).AddRouteConfigurations [sampleRouteConfig]).Build
          sampleMarshal sampleToAny).1 =
      (((New.AddListener [sampleListener]).AddRouteConfigurations [sampleRouteConfig]).Build
          sampleMarshal sampleToAny).1 :=
  have hm : ∀ h, ∃ a, sampleMarshal h = .ok a := fun h => ⟨_, rfl⟩
  ⟨hm, by decide,
   (C10_fragments_ignored_when_listeners_present sampleMarshal sampleToAny hm
      ((((New.AddFilterConfig "f1" sampleFilterConfig).AddRoutes [sampleRoute]).AddListener
        [sampleListener]).AddRouteConfigurations [sampleRouteConfig]) (by decide)).1⟩

/-! ## The "add" operations -/

theorem AddRoutes_eq (b : ConfigBuilder) (x : List Route) :
    b.AddRoutes x = { b with routes := b.routes ++ x } := by
  unfold ConfigBuilder.AddRoutes
  induction x generalizing b with
  | nil => simp
  | cons r x ih => simp [ih]

theorem AddClusters_eq (b : ConfigBuilder) (x : List Cluster) :
    b.AddClusters x = { b with clusters := b.clusters ++ x } := by
  unfold ConfigBuilder.AddClusters
  induction x generalizing b with
  | nil => simp
  | cons r x ih => simp [ih]

theorem AddListener_eq (b : ConfigBuilder) (x : List Listener) :
    b.AddListener x = { b with listeners := b.listeners ++ x } := by
  unfold ConfigBuilder.AddListener
  induction x generalizing b with
  | nil => simp
  | cons r x ih => simp [ih]

theorem AddRouteConfigurations_eq (b : ConfigBuilder) (x : List RouteConfiguration) :
    b.AddRouteConfigurations x =
      { b with routeConfigurations :=
          x.foldl (fun m rc => mapSet m rc.name rc) b.routeConfigurations } := by
  unfold ConfigBuilder.AddRouteConfigurations
  induction x generalizing b with
  | nil => simp
  | cons r x ih => simp [ih]

theorem append_twice_eq_iff {α : Type} (l x : List α) : l ++ x ++ x = l ++ x ↔ x = [] := by
  constructor
  · intro h
    have hlen := congrArg List.length h
    simp only [List.length_append] at hlen
    exact List.length_eq_zero.1 (by omega)
  · rintro rfl
    simp

/-- C9 (amended): `AddRouteConfigurations` is idempotent: calling it twice in a row with the
same argument leaves the same builder, hence the same `Build` result, as calling it once.
`AddRoutes`, `AddClusters` and `AddListener` append their argument to the stored list, so two
calls in a row store the argument twice, which is the state after one call exactly when the
argument is empty. -/
theorem C9_only_route_configurations_add_idempotent
    (m : Marshal) (toAny : ProtoMessage → Any) (b : ConfigBuilder) :
    (∀ x : List RouteConfiguration,
        (b.AddRouteConfigurations x).AddRouteConfigurations x = b.AddRouteConfigurations x ∧
        ((b.AddRouteConfigurations x).AddRouteConfigurations x).Build m toAny =
          (b.AddRouteConfigurations x).Build m toAny) ∧
    (∀ x : List Route,
        (b.AddRoutes x).AddRoutes x = { b with routes := b.routes ++ x ++ x } ∧
        ((b.AddRoutes x).AddRoutes x = b.AddRoutes x ↔ x = [])) ∧
    (∀ x : List Cluster,
        (b.AddClusters x).AddClusters x = { b with clusters := b.clusters ++ x ++ x } ∧
        ((b.AddClusters x).AddClusters x = b.AddClusters x ↔ x = [])) ∧
    (∀ x : List Listener,
        (b.AddListener x).AddListener x = { b with listeners := b.listeners ++ x ++ x } ∧
        ((b.AddListener x).AddListener x = b.AddListener x ↔ x = [])) := by
  refine ⟨fun x => ?_, fun x => ?_, fun x => ?_, fun x => ?_⟩
  · have h : (b.AddRouteConfigurations x).AddRouteConfigurations x =
        b.AddRouteConfigurations x := by
      rw [AddRouteConfigurations_eq (b.AddRouteConfigurations x), AddRouteConfigurations_eq b]
      simp only [foldl_mapSet_idem (fun rc : RouteConfiguration => rc.name)]
    exact ⟨h, by rw [h]⟩
  · have h : (b.AddRoutes x).AddRoutes x = { b with routes := b.routes ++ x ++ x } := by
      rw [AddRoutes_eq (b.AddRoutes x), AddRoutes_eq b]
    refine ⟨h, ?_⟩
    rw [h, AddRoutes_eq b, ← append_twice_eq_iff b.routes x]
    constructor
    · intro he
      exact congrArg ConfigBuilder.routes he
    · intro he
      simp only [he]
  · have h : (b.AddClusters x).AddClusters x = { b with clusters := b.clusters ++ x ++ x } := by
      rw [AddClusters_eq (b.AddClusters x), AddClusters_eq b]
    refine ⟨h, ?_⟩
    rw [h, AddClusters_eq b, ← append_twice_eq_iff b.clusters x]
    constructor
    · intro he
      exact congrArg ConfigBuilder.clusters he
    · intro he
      simp only [he]
  · have h : (b.AddListener x).AddListener x =
        { b with listeners := b.listeners ++ x ++ x } := by
      rw [AddListener_eq (b.AddListener x), AddListener_eq b]
    refine ⟨h, ?_⟩
    rw [h, AddListener_eq b, ← append_twice_eq_iff b.listeners x]
    constructor
    · intro he
      exact congrArg ConfigBuilder.listeners he
    · intro he
      simp only [he]

/-- C9 refuted as stated: adding one route twice leaves two stored routes, not one; and
adding one listener twice makes `Build` return a document with two listeners, not one. -/
theorem C9_add_not_idempotent_counterexample :
    (New.AddRoutes [sampleRoute]).AddRoutes [sampleRoute] ≠ New.AddRoutes [sampleRoute] ∧
    (((New.AddRouteConfigurations [sampleRouteConfig]).AddListener
        [sampleListener]).AddListener [sampleListener]).Build sampleMarshal sampleToAny ≠
      ((New.AddRouteConfigurations [sampleRouteConfig]).AddListener
        [sampleListener]).Build sampleMarshal sampleToAny := by
  decide

/-! ## Repeating `Build` -/

theorem patchFilters_idem (m : Marshal) (rcs : GoMap RouteConfiguration) (n : String)
    (fs : List Filter) :
    patchFilters m rcs n (patchFilters m rcs n fs).1 = patchFilters m rcs n fs := by
  induction fs with
  | nil => simp [patchFilters]
  | cons f fs ih =>
    by_cases hf : f.name = "envoy.filters.network.http_connection_manager"
    · cases hg : mapGet rcs n with
      | none => simp [patchFilters, hf, hg]
      | some rc =>
        cases hq : m { StatPrefix := "placeholder", routeConfig := some rc } with
        | error e => simp [patchFilters, hf, hg, hq]
        | ok a =>
          have h1 : patchFilters m rcs n (f :: fs) =
              ({ name := HTTPConnectionManager, typedConfig := some a } ::
                (patchFilters m rcs n fs).1, (patchFilters m rcs n fs).2) := by
            simp [patchFilters, hf, hg, hq]
          rw [h1]
          simp [patchFilters, HTTPConnectionManager, hg, hq, ih]
    · have h1 : patchFilters m rcs n (f :: fs) =
          (f :: (patchFilters m rcs n fs).1, (patchFilters m rcs n fs).2) := by
        simp [patchFilters, hf]
      rw [h1]
      simp [patchFilters, hf, ih]

theorem patchChains_idem (m : Marshal) (rcs : GoMap RouteConfiguration)
    (fcs : List FilterChain) :
    patchChains m rcs (patchChains m rcs fcs).1 = patchChains m rcs fcs := by
  induction fcs with
  | nil => simp [patchChains]
  | cons fc fcs ih =>
    have hi := patchFilters_idem m rcs fc.name fc.filters
    cases he : (patchFilters m rcs fc.name fc.filters).2 with
    | some e =>
      have h1 : patchChains m rcs (fc :: fcs) =
          ({ fc with filters := (patchFilters m rcs fc.name fc.filters).1 } :: fcs, some e) := by
        simp [patchChains, he]
      rw [h1]
      simp [patchChains, hi, he]
    | none =>
      have h1 : patchChains m rcs (fc :: fcs) =
          ({ fc with filters := (patchFilters m rcs fc.name fc.filters).1 } ::
            (patchChains m rcs fcs).1, (patchChains m rcs fcs).2) := by
        simp [patchChains, he]
      rw [h1]
      simp [patchChains, hi, he, ih]

theorem patchListeners_idem (m : Marshal) (rcs : GoMap RouteConfiguration)
    (ls : List Listener) :
    patchListeners m rcs (patchListeners m rcs ls).1 = patchListeners m rcs ls := by
  induction ls with
  | nil => simp [patchListeners]
  | cons l ls ih =>
    have hi := patchChains_idem m rcs l.filterChains
    cases he : (patchChains m rcs l.filterChains).2 with
    | some e =>
      have h1 : patchListeners m rcs (l :: ls) =
          ({ l with filterChains := (patchChains m rcs l.filterChains).1 } :: ls, some e) := by
        simp [patchListeners, he]
      rw [h1]
      simp [patchListeners, hi, he]
    | none =>
      have h1 : patchListeners m rcs (l :: ls) =
          ({ l with filterChains := (patchChains m rcs l.filterChains).1 } ::
            (patchListeners m rcs ls).1, (patchListeners m rcs ls).2) := by
        simp [patchListeners, he]
      rw [h1]
      simp [patchListeners, hi, he, ih]

theorem patchListeners_length (m : Marshal) (rcs : GoMap RouteConfiguration)
    (ls : List Listener) : (patchListeners m rcs ls).1.length = ls.length := by
  induction ls with
  | nil => simp [patchListeners]
  | cons l ls ih =>
    cases he : (patchChains m rcs l.filterChains).2 <;> simp [patchListeners, he, ih]

theorem Build_routeConfigurations (m : Marshal) (toAny : ProtoMessage → Any)
    (b : ConfigBuilder) :
    (b.Build m toAny).2.routeConfigurations = b.routeConfigurations := by
  unfold ConfigBuilder.Build
  cases hs : (if b.filterConfigs.length > 0 ∨ b.routes.length > 0 then
      match m (placeholderHCM toAny b) with
      | .error e => Except.error ("failed to marshal HttpConnectionManager: " ++ e)
      | .ok hcmAny => Except.ok ({ listeners := [placeholderListener hcmAny] } : StaticResources)
    else Except.ok {}) with
  | error e => simp
  | ok sr =>
    by_cases hl : b.listeners.length > 0
    · cases he : (patchListeners m b.routeConfigurations b.listeners).2 <;> simp [hl, he]
    · simp [hl]

theorem Build_eq (m : Marshal) (toAny : ProtoMessage → Any) (b : ConfigBuilder) :
    b.Build m toAny =
      match synthesizedResources m toAny b with
      | .error e => ({ doc := none, err := some e }, b)
      | .ok sr0 =>
        if b.listeners.length > 0 then
          match (patchListeners m b.routeConfigurations b.listeners).2 with
          | some e =>
            ({ doc := none, err := some e },
             { b with listeners := (patchListeners m b.routeConfigurations b.listeners).1 })
          | none =>
            ({ doc := some
                { node := validationNode
                  staticResources :=
                    { (if b.clusters.length > 0 then { sr0 with clusters := b.clusters }
                       else sr0) with
                      listeners := (patchListeners m b.routeConfigurations b.listeners).1 } }
               err := none },
             { b with listeners := (patchListeners m b.routeConfigurations b.listeners).1 })
        else
          ({ doc := some
              { node := validationNode
                staticResources :=
                  if b.clusters.length > 0 then { sr0 with clusters := b.clusters } else sr0 }
             err := none }, b) := rfl

theorem Build_idem (m : Marshal) (toAny : ProtoMessage → Any) (b : ConfigBuilder) :
    (b.Build m toAny).2.Build m toAny = b.Build m toAny := by
  have hi := patchListeners_idem m b.routeConfigurations b.listeners
  have hlen := patchListeners_length m b.routeConfigurations b.listeners
  cases hs : synthesizedResources m toAny b with
  | error e =>
    have h1 : b.Build m toAny = ({ doc := none, err := some e }, b) := by
      rw [Build_eq, hs]
    rw [h1]
    exact h1
  | ok sr =>
    by_cases hl : b.listeners.length > 0
    · have hs1 : synthesizedResources m toAny
          { b with listeners := (patchListeners m b.routeConfigurations b.listeners).1 } =
            .ok sr := hs
      have hl1 : (patchListeners m b.routeConfigurations b.listeners).1.length > 0 := by
        rw [hlen]; exact hl
      cases he : (patchListeners m b.routeConfigurations b.listeners).2 with
      | some e =>
        have h1 : b.Build m toAny = ({ doc := none, err := some e },
            { b with listeners := (patchListeners m b.routeConfigurations b.listeners).1 }) := by
          rw [Build_eq, hs]
          simp [hl, he]
        rw [h1, Build_eq, hs1]
        simp [hl1, hi, he]
      | none =>
        have h1 : b.Build m toAny =
            ({ doc := some
                { node := validationNode
                  staticResources :=
                    { (if b.clusters.length > 0 then { sr with clusters := b.clusters }
                       else sr) with
                      listeners := (patchListeners m b.routeConfigurations b.listeners).1 } }
               err := none },
             { b with listeners := (patchListeners m b.routeConfigurations b.listeners).1 }) := by
          rw [Build_eq, hs]
          simp [hl, he]
        rw [h1, Build_eq, hs1]
        simp [hl1, hi, he]
    · have h1 : (b.Build m toAny).2 = b := by
        rw [Build_eq, hs]
        simp [hl]
      rw [h1]

theorem string_append_left_cancel (p a b : String) (h : p ++ a = p ++ b) : a = b := by
  have hd := congrArg String.data h
  simp only [String.data_append, List.append_cancel_left_eq] at hd
  exact String.ext hd

theorem Build_state (m : Marshal) (toAny : ProtoMessage → Any) (b : ConfigBuilder) :
    (b.Build m toAny).2 = b ∨
      (b.Build m toAny).2 =
        { b with listeners := (patchListeners m b.routeConfigurations b.listeners).1 } := by
  rw [Build_eq]
  cases hs : synthesizedResources m toAny b with
  | error e => exact Or.inl rfl
  | ok sr =>
    by_cases hl : b.listeners.length > 0
    · cases he : (patchListeners m b.routeConfigurations b.listeners).2 <;> simp [hl, he]
    · simp [hl]

theorem patchFilters_names (m : Marshal) (rcs : GoMap RouteConfiguration) (n : String)
    (fs : List Filter) :
    (patchFilters m rcs n fs).1.map Filter.name = fs.map Filter.name := by
  induction fs with
  | nil => simp [patchFilters]
  | cons f fs ih =>
    unfold patchFilters
    by_cases hf : f.name = "envoy.filters.network.http_connection_manager"
    · cases hg : mapGet rcs n with
      | none => simp [hf]
      | some rc =>
        cases hq : m { StatPrefix := "placeholder", routeConfig := some rc } with
        | error e => simp [hf, hq]
        | ok a => simp [hf, hq, ih, HTTPConnectionManager]
    · simp [hf, ih]

theorem missingRouteConfig_of_names (rcs : GoMap RouteConfiguration) (fc fc' : FilterChain)
    (hn : fc'.name = fc.name) (hf : fc'.filters.map Filter.name = fc.filters.map Filter.name) :
    missingRouteConfig rcs fc' = missingRouteConfig rcs fc := by
  have h : ∀ l : List Filter,
      l.any (fun f => decide (f.name = "envoy.filters.network.http_connection_manager")) =
        (l.map Filter.name).any
          (fun s => decide (s = "envoy.filters.network.http_connection_manager")) := by
    intro l
    induction l with
    | nil => rfl
    | cons f l ih => simp [List.any_cons, ih]
  simp only [missingRouteConfig, h, hf, hn]

theorem patchChains_signature (m : Marshal) (rcs : GoMap RouteConfiguration)
    (fcs : List FilterChain) :
    (patchChains m rcs fcs).1.map (fun fc => (fc.name, missingRouteConfig rcs fc)) =
      fcs.map (fun fc => (fc.name, missingRouteConfig rcs fc)) := by
  induction fcs with
  | nil => simp [patchChains]
  | cons fc fcs ih =>
    have hm := missingRouteConfig_of_names rcs fc
      { fc with filters := (patchFilters m rcs fc.name fc.filters).1 } rfl
      (patchFilters_names m rcs fc.name fc.filters)
    cases he : (patchFilters m rcs fc.name fc.filters).2 with
    | some e => simp [patchChains, he, hm]
    | none => simp [patchChains, he, hm, ih]

theorem patchListeners_signature (m : Marshal) (rcs : GoMap RouteConfiguration)
    (ls : List Listener) :
    (allChains (patchListeners m rcs ls).1).map
        (fun fc => (fc.name, missingRouteConfig rcs fc)) =
      (allChains ls).map (fun fc => (fc.name, missingRouteConfig rcs fc)) := by
  induction ls with
  | nil => simp [patchListeners]
  | cons l ls ih =>
    have hc := patchChains_signature m rcs l.filterChains
    simp only [allChains] at ih ⊢
    cases he : (patchChains m rcs l.filterChains).2 with
    | some e => simp [patchListeners, he, hc, List.flatMap_cons, List.map_append]
    | none => simp [patchListeners, he, hc, ih, List.flatMap_cons, List.map_append]

theorem find_of_signature {α : Type} (name : α → String) (p : α → Bool) (l l' : List α)
    (h : l'.map (fun x => (name x, p x)) = l.map (fun x => (name x, p x))) :
    (l'.find? p).map name = (l.find? p).map name ∧ l'.findIdx p = l.findIdx p := by
  induction l generalizing l' with
  | nil =>
    cases l' with
    | nil => simp
    | cons y l' => simp at h
  | cons x l ih =>
    cases l' with
    | nil => simp at h
    | cons y l' =>
      simp only [List.map_cons, List.cons.injEq, Prod.mk.injEq] at h
      obtain ⟨⟨hn, hp⟩, ht⟩ := h
      have := ih l' ht
      cases hx : p x with
      | true => simp [List.find?_cons, List.findIdx_cons, hx, hp, hn]
      | false => simp [List.find?_cons, List.findIdx_cons, hx, hp, this.1, this.2]

theorem Build_signature (m : Marshal) (toAny : ProtoMessage → Any) (b : ConfigBuilder) :
    (allChains (b.Build m toAny).2.listeners).map
        (fun fc => (fc.name, missingRouteConfig b.routeConfigurations fc)) =
      (allChains b.listeners).map
        (fun fc => (fc.name, missingRouteConfig b.routeConfigurations fc)) := by
  rcases Build_state m toAny b with h | h
  · rw [h]
  · rw [h]
    exact patchListeners_signature m b.routeConfigurations b.listeners

/-! ## The errors of `Build`, whatever the serializer does -/

theorem patchFilters_err_cases (m : Marshal) (rcs : GoMap RouteConfiguration) (n : String)
    (fs : List Filter) :
    ((patchFilters m rcs n fs).2 = none →
        missingRouteConfig rcs { name := n, filters := fs, rest := [] } = false) ∧
    (∀ e, (patchFilters m rcs n fs).2 = some e →
        (missingRouteConfig rcs { name := n, filters := fs, rest := [] } = true ∧
          e = "no RouteConfiguration found with name " ++ n) ∨
        ∃ s, e = "failed to marshal HttpConnectionManager: " ++ s) := by
  induction fs with
  | nil => simp [patchFilters, missingRouteConfig]
  | cons f fs ih =>
    by_cases hf : f.name = "envoy.filters.network.http_connection_manager"
    · cases hg : mapGet rcs n with
      | none => simp [patchFilters, hf, hg, missingRouteConfig]
      | some rc =>
        cases hq : m { StatPrefix := "placeholder", routeConfig := some rc } with
        | error s => simp [patchFilters, hf, hg, hq, missingRouteConfig]
        | ok a =>
          simp only [missingRouteConfig, hg, Option.isNone_some, Bool.and_false,
            Bool.false_eq_true, false_and, false_or, implies_true, true_and] at ih ⊢
          simpa [patchFilters, hf, hg, hq] using ih
    · have hm : missingRouteConfig rcs { name := n, filters := f :: fs, rest := [] } =
          missingRouteConfig rcs { name := n, filters := fs, rest := [] } := by
        simp [missingRouteConfig, hf]
      rw [hm]
      simpa [patchFilters, hf] using ih

theorem patchChains_err_cases (m : Marshal) (rcs : GoMap RouteConfiguration)
    (fcs : List FilterChain) :
    ((patchChains m rcs fcs).2 = none → fcs.find? (missingRouteConfig rcs) = none) ∧
    (∀ e, (patchChains m rcs fcs).2 = some e →
        (∃ fc, fcs.find? (missingRouteConfig rcs) = some fc ∧
          e = "no RouteConfiguration found with name " ++ fc.name) ∨
        ∃ s, e = "failed to marshal HttpConnectionManager: " ++ s) := by
  induction fcs with
  | nil => simp [patchChains]
  | cons fc fcs ih =>
    have h := patchFilters_err_cases m rcs fc.name fc.filters
    rw [missingRouteConfig_congr] at h
    cases he : (patchFilters m rcs fc.name fc.filters).2 with
    | some e =>
      rcases h.2 e he with ⟨hmiss, hmsg⟩ | hs
      · simp [patchChains, he, List.find?_cons, hmiss, hmsg]
      · refine ⟨by simp [patchChains, he], fun e' he' => Or.inr ?_⟩
        simp only [patchChains, he, Option.some.injEq] at he'
        rw [← he']
        exact hs
    | none =>
      have hmiss := h.1 he
      simpa [patchChains, he, List.find?_cons, hmiss] using ih

theorem patchListeners_err_cases (m : Marshal) (rcs : GoMap RouteConfiguration)
    (ls : List Listener) :
    ((patchListeners m rcs ls).2 = none → firstMissing rcs ls = none) ∧
    (∀ e, (patchListeners m rcs ls).2 = some e →
        (∃ fc, firstMissing rcs ls = some fc ∧
          e = "no RouteConfiguration found with name " ++ fc.name) ∨
        ∃ s, e = "failed to marshal HttpConnectionManager: " ++ s) := by
  induction ls with
  | nil => simp [patchListeners, firstMissing, allChains]
  | cons l ls ih =>
    have h := patchChains_err_cases m rcs l.filterChains
    simp only [firstMissing, allChains, List.flatMap_cons, List.find?_append] at ih ⊢
    cases he : (patchChains m rcs l.filterChains).2 with
    | some e =>
      rcases h.2 e he with ⟨fc, hfc, hmsg⟩ | hs
      · simp [patchListeners, he, hfc, hmsg]
      · refine ⟨by simp [patchListeners, he], fun e' he' => Or.inr ?_⟩
        simp only [patchListeners, he, Option.some.injEq] at he'
        rw [← he']
        exact hs
    | none =>
      have hnone := h.1 he
      simpa [patchListeners, he, hnone] using ih

theorem Build_err_cases (m : Marshal) (toAny : ProtoMessage → Any) (b : ConfigBuilder)
    (e : String) (he : (b.Build m toAny).1.err = some e) :
    (∃ fc, firstMissing b.routeConfigurations b.listeners = some fc ∧
      e = "no RouteConfiguration found with name " ++ fc.name) ∨
    ∃ s, e = "failed to marshal HttpConnectionManager: " ++ s := by
  rw [Build_eq] at he
  cases hs : synthesizedResources m toAny b with
  | error e' =>
    simp only [hs, Option.some.injEq] at he
    refine Or.inr ?_
    rw [← he]
    unfold synthesizedResources at hs
    split_ifs at hs
    · cases hq : m (placeholderHCM toAny b) with
      | error s =>
        simp only [hq, Except.error.injEq] at hs
        exact ⟨s, hs.symm⟩
      | ok a => simp [hq] at hs
  | ok sr =>
    by_cases hl : b.listeners.length > 0
    · cases hp : (patchListeners m b.routeConfigurations b.listeners).2 with
      | none => simp [hs, hl, hp] at he
      | some e' =>
        simp only [hs, hl, hp, if_true, Option.some.injEq] at he
        rw [← he]
        exact (patchListeners_err_cases m b.routeConfigurations b.listeners).2 e' hp
    · simp [hs, hl] at he

theorem not_mentions_of_char (e n : String) (c : Char) (hc : c ∈ n.data) (he : c ∉ e.data) :
    ¬ Mentions e n := by
  rintro ⟨pre, post, h⟩
  apply he
  rw [h]
  simp [String.data_append, hc]

/-- C11 (amended): `Build` is repeatable. Calling it again on the builder that a first call
leaves behind (stored listeners rewritten in place, possibly only up to the failing chain)
returns the same result and leaves the same builder: the same document, or the same error.
An error is either the missing-route-configuration error, which mentions the name of the
first chain lacking its route configuration, that chain having the same position and name in
the rewritten listeners as in the original ones; or a serialization error, which starts with
"failed to marshal HttpConnectionManager: ". When serialization succeeds the error is of the
first kind. -/
theorem C11_build_repeatable (m : Marshal) (toAny : ProtoMessage → Any) (b : ConfigBuilder) :
    ((b.Build m toAny).2.Build m toAny).1 = (b.Build m toAny).1 ∧
    ((b.Build m toAny).2.Build m toAny).2 = (b.Build m toAny).2 ∧
    (∀ doc, (b.Build m toAny).1.doc = some doc →
      ((b.Build m toAny).2.Build m toAny).1.doc = some doc) ∧
    (∀ e, (b.Build m toAny).1.err = some e →
      ((b.Build m toAny).2.Build m toAny).1.err = some e) ∧
    firstMissingIndex b.routeConfigurations (b.Build m toAny).2.listeners =
      firstMissingIndex b.routeConfigurations b.listeners ∧
    (firstMissing b.routeConfigurations (b.Build m toAny).2.listeners).map FilterChain.name =
      (firstMissing b.routeConfigurations b.listeners).map FilterChain.name ∧
    (∀ e, (b.Build m toAny).1.err = some e →
      (∃ fc fc', firstMissing b.routeConfigurations b.listeners = some fc ∧
        firstMissing b.routeConfigurations (b.Build m toAny).2.listeners = some fc' ∧
        fc'.name = fc.name ∧ Mentions e fc.name) ∨
      ∃ s, e = "failed to marshal HttpConnectionManager: " ++ s) ∧
    ((∀ h, ∃ a, m h = .ok a) → ∀ e, (b.Build m toAny).1.err = some e →
      ∃ fc fc', firstMissing b.routeConfigurations b.listeners = some fc ∧
        firstMissing b.routeConfigurations (b.Build m toAny).2.listeners = some fc' ∧
        fc'.name = fc.name ∧ Mentions e fc.name ∧
        ((b.Build m toAny).2.Build m toAny).1.err = some e) := by
  have hi := Build_idem m toAny b
  have hsig := find_of_signature FilterChain.name (missingRouteConfig b.routeConfigurations)
    (allChains b.listeners) (allChains (b.Build m toAny).2.listeners)
    (Build_signature m toAny b)
  have hsame : ∀ fc, firstMissing b.routeConfigurations b.listeners = some fc →
      ∃ fc', firstMissing b.routeConfigurations (b.Build m toAny).2.listeners = some fc' ∧
        fc'.name = fc.name := by
    intro fc hf
    have hn := hsig.1
    simp only [firstMissing] at hf ⊢
    rw [hf] at hn
    cases hf' : (allChains (b.Build m toAny).2.listeners).find?
        (missingRouteConfig b.routeConfigurations) with
    | none => simp [hf'] at hn
    | some fc' =>
      simp only [hf', Option.map_some', Option.some.injEq] at hn
      exact ⟨fc', rfl, hn⟩
  refine ⟨by rw [hi], by rw [hi], fun doc hd => by rw [hi]; exact hd,
    fun e he => by rw [hi]; exact he, hsig.2, hsig.1, fun e he => ?_, fun hm e he => ?_⟩
  · rcases Build_err_cases m toAny b e he with ⟨fc, hf, hmsg⟩ | hs
    · obtain ⟨fc', hf', hn⟩ := hsame fc hf
      exact Or.inl ⟨fc, fc', hf, hf', hn,
        "no RouteConfiguration found with name ", "", by simp [hmsg]⟩
    · exact Or.inr hs
  · have herr := Build_err m toAny hm b
    have he2 := he
    rw [herr] at he
    cases hf : firstMissing b.routeConfigurations b.listeners with
    | none => simp [hf] at he
    | some fc =>
      obtain ⟨fc', hf', hn⟩ := hsame fc hf
      simp only [hf, Option.map_some', Option.some.injEq] at he
      exact ⟨fc, fc', rfl, hf', hn,
        ⟨"no RouteConfiguration found with name ", "", by simp [← he]⟩, by rw [hi]; exact he2⟩

/-- C11 (amended) at a concrete input: the listener with chain "fc1" without its route
configuration (the error case) and with it (the document case). -/
theorem C11_build_repeatable_witness :
    (∀ h, ∃ a, sampleMarshal h = .ok a) ∧
    ((New.AddListener [sampleListener]).Build sampleMarshal sampleToAny).1.err =
      some "no RouteConfiguration found with name fc1" ∧
    (((New.AddListener [sampleListener]).Build sampleMarshal sampleToAny).2.Build
      sampleMarshal sampleToAny).1.err = some "no RouteConfiguration found with name fc1" ∧
    ((((New.AddListener [sampleListener]).AddRouteConfigurations [sampleRouteConfig]).Build
        sampleMarshal sampleToAny).2.Build sampleMarshal sampleToAny).1 =
      (((New.AddListener [sampleListener]).AddRouteConfigurations [sampleRouteConfig]).Build
        sampleMarshal sampleToAny).1 :=
  have hm : ∀ h, ∃ a, sampleMarshal h = .ok a := fun h => ⟨_, rfl⟩
  ⟨hm, by decide,
   match (C11_build_repeatable sampleMarshal sampleToAny
      (New.AddListener [sampleListener])).2.2.2.2.2.2.2 hm
      "no RouteConfiguration found with name fc1" (by decide) with
   | ⟨_, _, _, _, _, _, h2⟩ => h2,
   (C11_build_repeatable sampleMarshal sampleToAny
      ((New.AddListener [sampleListener]).AddRouteConfigurations [sampleRouteConfig])).1⟩

/-- C11 refuted as stated: with a serializer that fails, the listener with chain "fc1" and
the route configuration "fc1" make both calls of `Build` return the same serialization error
and no document, and that error mentions the name of no filter chain of the builder (no chain
lacks its route configuration). -/
theorem C11_serialization_error_names_no_chain_counterexample :
    ((New.AddListener [sampleListener]).AddRouteConfigurations [sampleRouteConfig]).listeners =
      [sampleListener] ∧
    (((New.AddListener [sampleListener]).AddRouteConfigurations [sampleRouteConfig]).Build
        failingMarshal sampleToAny).1 =
      { doc := none,
        err := some "failed to marshal HttpConnectionManager: proto: cannot encode message" } ∧
    ((((New.AddListener [sampleListener]).AddRouteConfigurations [sampleRouteConfig]).Build
        failingMarshal sampleToAny).2.Build failingMarshal sampleToAny).1 =
      { doc := none,
        err := some "failed to marshal HttpConnectionManager: proto: cannot encode message" } ∧
    firstMissing [("fc1", sampleRouteConfig)] [sampleListener] = none ∧
    (∀ fc ∈ allChains [sampleListener],
      ¬ Mentions "failed to marshal HttpConnectionManager: proto: cannot encode message"
        fc.name) := by
  refine ⟨by decide, by decide, by decide, by decide, ?_⟩
  intro fc hfc
  have hname : fc.name = "fc1" := by
    simp only [allChains, sampleListener, List.flatMap_cons, List.flatMap_nil, List.append_nil,
      List.mem_singleton] at hfc
    rw [hfc]
  rw [hname]
  exact not_mentions_of_char _ "fc1" (Char.ofNat 49) (by decide) (by decide)

end bootstrap

namespace collections

/-! ## The synchronization gate -/

theorem presentAnd_eq_true {α : Type} (x : Option α) (f : α → Bool) :
    presentAnd x f = true ↔ ∃ v, x = some v ∧ f v = true := by
  cases x <;> simp [presentAnd]

/-- C4: after a successful `NewCommonCollections` the plugin-dependent fields `BackendIndex`,
`Routes` and `GatewayIndex` are nil and `HasSynced` is false in every synchronization state;
and `HasSynced` can only be true on an object where each of the three is non-nil. -/
theorem C4_hasSynced_false_after_phase_one
    (newDiscoveryNamespacesFilter : String → Except String String)
    (krtOptions : KrtOptions) (client : Client) (controllerName : String)
    (agentGatewayControllerName : String) (settings : Settings) (opts : List OptionFunc)
    (cc : CommonCollections)
    (h : NewCommonCollections newDiscoveryNamespacesFilter krtOptions client controllerName
      agentGatewayControllerName settings opts = .ok cc) :
    cc.BackendIndex = none ∧ cc.Routes = none ∧ cc.GatewayIndex = none ∧
    (∀ σ, cc.HasSynced σ = false) ∧
    (∀ σ (c : CommonCollections), c.HasSynced σ = true →
      c.BackendIndex ≠ none ∧ c.Routes ≠ none ∧ c.GatewayIndex ≠ none) := by
  unfold NewCommonCollections at h
  cases hf : newDiscoveryNamespacesFilter settings.DiscoveryNamespaceSelectors with
  | error e => simp [hf] at h
  | ok f =>
    simp only [hf, Except.ok.injEq] at h
    subst h
    refine ⟨rfl, rfl, rfl, fun σ => ?_, fun σ c hc => ?_⟩
    · simp [CommonCollections.HasSynced, presentAnd]
    · simp only [CommonCollections.HasSynced, Bool.and_eq_true, presentAnd_eq_true] at hc
      obtain ⟨⟨⟨⟨⟨⟨⟨⟨⟨⟨_, ⟨b, hb, _⟩⟩, ⟨r, hr, _⟩⟩, _⟩, _⟩, _⟩, _⟩, _⟩, _⟩, _⟩,
        ⟨g, hg, _⟩⟩ := hc
      simp [hb, hr, hg]

/-- C4 at a concrete input. -/
theorem C4_hasSynced_false_after_phase_one_witness :
    NewCommonCollections sampleFilter { debugger := "" } { cluster := "kind" }
      "kgateway.dev/kgateway" "kgateway.dev/agentgateway" sampleSettings [] =
        .ok samplePhaseOne ∧
    ∀ σ, samplePhaseOne.HasSynced σ = false :=
  ⟨rfl, (C4_hasSynced_false_after_phase_one sampleFilter { debugger := "" } { cluster := "kind" }
      "kgateway.dev/kgateway" "kgateway.dev/agentgateway" sampleSettings [] samplePhaseOne
      rfl).2.2.2.1⟩

/-- C5 (amended): if `HasSynced` returns true then the Secret Index, the Reference-Grant
Index, the Backend Index and the Routes Index are present and report synchronized, and the
Gateway Index is present and its gateways collection reports synchronized. -/
theorem C5_hasSynced_implies_checked_indexes_synced (σ : SyncState) (c : CommonCollections)
    (h : c.HasSynced σ = true) :
    (∃ s, c.Secrets = some s ∧ σ.secretIndex s = true) ∧
    (∃ r, c.RefGrants = some r ∧ σ.refGrantIndex r = true) ∧
    (∃ b, c.BackendIndex = some b ∧ σ.backendIndex b = true) ∧
    (∃ r, c.Routes = some r ∧ σ.routesIndex r = true) ∧
    (∃ g, c.GatewayIndex = some g ∧ g.Gateways.HasSynced σ = true) := by
  simp only [CommonCollections.HasSynced, Bool.and_eq_true, presentAnd_eq_true] at h
  obtain ⟨⟨⟨⟨⟨⟨⟨⟨⟨⟨hs, hb⟩, hr⟩, _⟩, _⟩, hg⟩, _⟩, _⟩, _⟩, _⟩, hgw⟩ := h
  exact ⟨hs, hg, hb, hr, hgw⟩

/-- C5 (amended) at a concrete input: the sample composition root after both phases, with
everything synchronized. -/
theorem C5_hasSynced_implies_checked_indexes_synced_witness :
    (samplePhaseOne.InitPlugins samplePlugins sampleSettings).HasSynced
        { joinsNotSynced with collection := fun _ => true } = true ∧
    ∃ b, (samplePhaseOne.InitPlugins samplePlugins sampleSettings).BackendIndex = some b :=
  ⟨rfl,
   have h := C5_hasSynced_implies_checked_indexes_synced
     { joinsNotSynced with collection := fun _ => true }
     (samplePhaseOne.InitPlugins samplePlugins sampleSettings) rfl
   ⟨h.2.2.1.choose, h.2.2.1.choose_spec.1⟩⟩

/-- C5 refuted as stated: after both phases, with every collection and index synchronized
except the joined Endpoints collection, `HasSynced` is true although the Endpoints collection
does not report synchronized. -/
theorem C5_hasSynced_ignores_endpoints_counterexample :
    (samplePhaseOne.InitPlugins samplePlugins sampleSettings).HasSynced joinsNotSynced = true ∧
    ownedIndexesSynced joinsNotSynced
      (samplePhaseOne.InitPlugins samplePlugins sampleSettings) = false ∧
    presentAnd (samplePhaseOne.InitPlugins samplePlugins sampleSettings).Endpoints
      (Collection.HasSynced joinsNotSynced) = false :=
  ⟨rfl, rfl, rfl⟩

/-! ## Plugin initialization -/

/-- C6 (amended): after `InitPlugins` the `GatewayIndex` is present for every settings value;
with `EnableEnvoy` set, `BackendIndex`, `Routes` and `Endpoints` are present too (whatever the
experimental listener-set setting); with `EnableEnvoy` unset, `BackendIndex`, `Routes` and
`Endpoints` are nil and `HasSynced` is false in every synchronization state. -/
theorem C6_initPlugins_fields_by_settings (c : CommonCollections) (plugins : Plugin)
    (settings : Settings) :
    (∃ g, (c.InitPlugins plugins settings).GatewayIndex = some g) ∧
    (settings.EnableEnvoy = true →
      ∃ b r e, (c.InitPlugins plugins settings).BackendIndex = some b ∧
        (c.InitPlugins plugins settings).Routes = some r ∧
        (c.InitPlugins plugins settings).Endpoints = some e) ∧
    (settings.EnableEnvoy = false →
      (c.InitPlugins plugins settings).BackendIndex = none ∧
      (c.InitPlugins plugins settings).Routes = none ∧
      (c.InitPlugins plugins settings).Endpoints = none ∧
      ∀ σ, (c.InitPlugins plugins settings).HasSynced σ = false) := by
  refine ⟨?_, fun h => ?_, fun h => ?_⟩
  · cases h : settings.EnableEnvoy <;>
      simp [CommonCollections.InitPlugins, CommonCollections.InitCollections, h]
  · simp [CommonCollections.InitPlugins, CommonCollections.InitCollections, h]
  · simp [CommonCollections.InitPlugins, CommonCollections.InitCollections, h,
      CommonCollections.HasSynced, presentAnd]

/-- C6 (amended) at concrete inputs: the sample composition root initialized with Envoy
enabled and with Envoy disabled. -/
theorem C6_initPlugins_fields_by_settings_witness :
    sampleSettings.EnableEnvoy = true ∧ envoyDisabled.EnableEnvoy = false ∧
    (∃ e, (samplePhaseOne.InitPlugins samplePlugins sampleSettings).Endpoints = some e) ∧
    (samplePhaseOne.InitPlugins samplePlugins envoyDisabled).Endpoints = none :=
  ⟨rfl, rfl,
   have h := (C6_initPlugins_fields_by_settings samplePhaseOne samplePlugins
     sampleSettings).2.1 rfl
   ⟨h.choose_spec.choose_spec.choose, h.choose_spec.choose_spec.choose_spec.2.2⟩,
   ((C6_initPlugins_fields_by_settings samplePhaseOne samplePlugins envoyDisabled).2.2
     rfl).2.2.1⟩

/-- C6 refuted as stated: with `EnableEnvoy` unset, `InitPlugins` leaves `BackendIndex`,
`Routes` and `Endpoints` nil, and `HasSynced` is false even when everything reports
synchronized. -/
theorem C6_envoy_disabled_leaves_fields_nil_counterexample :
    (samplePhaseOne.InitPlugins samplePlugins envoyDisabled).BackendIndex.isSome = false ∧
    (samplePhaseOne.InitPlugins samplePlugins envoyDisabled).Routes.isSome = false ∧
    (samplePhaseOne.InitPlugins samplePlugins envoyDisabled).Endpoints.isSome = false ∧
    (samplePhaseOne.InitPlugins samplePlugins envoyDisabled).HasSynced
      { joinsNotSynced with collection := fun _ => true } = false :=
  ⟨rfl, rfl, rfl, rfl⟩

/-- C7: the gateway index returned by `InitCollections` is built from a configuration whose
`ListenerSets` is non-nil; when `EnableExperimentalGatewayAPIFeatures` is unset it is the
static collection made with a nil syncer and no values, which holds no elements and reports
synchronized in every synchronization state. -/
theorem C7_listener_sets_present_and_empty_when_disabled (c : CommonCollections)
    (controllerNames : List String) (plugins : Plugin) (settings : Settings) :
    ∃ g ls, (c.InitCollections controllerNames plugins settings).gateways = some g ∧
      g = NewGatewayIndex g.config ∧
      g.config.ListenerSets = some ls ∧
      (settings.EnableExperimentalGatewayAPIFeatures = false →
        ls = .static none [] "disable/KubeListenerSets" ∧
        (∀ contents, ls.List contents = []) ∧
        (∀ σ, ls.HasSynced σ = true)) := by
  cases he : settings.EnableEnvoy <;>
  cases hx : settings.EnableExperimentalGatewayAPIFeatures <;>
  simp [CommonCollections.InitCollections, he, hx, NewGatewayIndex, Collection.List,
    Collection.HasSynced]

/-- C7 at a concrete input: the experimental features disabled. -/
theorem C7_listener_sets_present_and_empty_when_disabled_witness :
    experimentalDisabled.EnableExperimentalGatewayAPIFeatures = false ∧
    ∃ g, (samplePhaseOne.InitCollections ["kgateway.dev/kgateway"] samplePlugins
        experimentalDisabled).gateways = some g ∧
      g.config.ListenerSets = some (.static none [] "disable/KubeListenerSets") :=
  ⟨rfl,
   have h := C7_listener_sets_present_and_empty_when_disabled samplePhaseOne
     ["kgateway.dev/kgateway"] samplePlugins experimentalDisabled
   ⟨h.choose, h.choose_spec.choose_spec.1, by
     have h3 := h.choose_spec.choose_spec.2.2
     rw [h3.1, (h3.2 rfl).1]⟩⟩

/-! ## The endpoints join -/

theorem foldl_endpoints (l : List (GroupKind × BackendPlugin)) (acc : List Collection) :
    l.foldl
        (fun all kv =>
          match kv.2.Endpoints with
          | some endpoints => all ++ [endpoints]
          | none => all)
        acc =
      acc ++ l.filterMap (fun kv => kv.2.Endpoints) := by
  induction l generalizing acc with
  | nil => simp
  | cons kv l ih =>
    simp only [List.foldl_cons, ih]
    cases h : kv.2.Endpoints <;> simp [List.filterMap_cons, h]

theorem allEndpoints_eq (plugins : Plugin) :
    allEndpoints plugins = plugins.ContributesBackends.filterMap (fun kv => kv.2.Endpoints) := by
  simp [allEndpoints, foldl_endpoints]

/-- C8: `initEndpoints` joins exactly the list `allEndpoints`, which holds, in visiting order,
the `Endpoints` of the backend plugins whose `Endpoints` is not nil: one member per such
plugin, none for the others and nothing else; visiting the registry in another order gives
the same members up to order; and with no such plugin the join is over the empty list. -/
theorem C8_initEndpoints_joins_non_nil_endpoints (plugins : Plugin) (krtopts : KrtOptions) :
    initEndpoints plugins krtopts = .join (allEndpoints plugins) "EndpointIRs" ∧
    allEndpoints plugins =
      plugins.ContributesBackends.filterMap (fun kv => kv.2.Endpoints) ∧
    (allEndpoints plugins).length =
      (plugins.ContributesBackends.filter (fun kv => kv.2.Endpoints.isSome)).length ∧
    (∀ e, e ∈ allEndpoints plugins ↔
      ∃ kv ∈ plugins.ContributesBackends, kv.2.Endpoints = some e) ∧
    (∀ plugins' : Plugin,
      plugins'.ContributesBackends.Perm plugins.ContributesBackends →
      (allEndpoints plugins').Perm (allEndpoints plugins)) ∧
    ((∀ kv ∈ plugins.ContributesBackends, kv.2.Endpoints = none) →
      allEndpoints plugins = []) := by
  refine ⟨rfl, allEndpoints_eq plugins, ?_, fun e => ?_, fun plugins' hp => ?_, fun h => ?_⟩
  · rw [allEndpoints_eq]
    induction plugins.ContributesBackends with
    | nil => rfl
    | cons kv l ih =>
      cases h : kv.2.Endpoints <;> simp [List.filterMap_cons, List.filter_cons, h, ih]
  · rw [allEndpoints_eq]
    simp [List.mem_filterMap]
  · rw [allEndpoints_eq, allEndpoints_eq]
    exact hp.filterMap _
  · rw [allEndpoints_eq, List.filterMap_eq_nil_iff]
    exact h

/-- C8 at a concrete input: the sample registry visited in the opposite order. -/
theorem C8_initEndpoints_joins_non_nil_endpoints_witness :
    samplePlugins.ContributesBackends.reverse.Perm samplePlugins.ContributesBackends ∧
    (allEndpoints { samplePlugins with
        ContributesBackends := samplePlugins.ContributesBackends.reverse }).Perm
      (allEndpoints samplePlugins) ∧
    allEndpoints samplePlugins = [.external "k8s.Endpoints"] :=
  ⟨List.reverse_perm _,
   (C8_initEndpoints_joins_non_nil_endpoints samplePlugins { debugger := "" }).2.2.2.2.1
     { samplePlugins with ContributesBackends := samplePlugins.ContributesBackends.reverse }
     (List.reverse_perm _),
   rfl⟩

end collections
